import Mathlib

/-!
Verification of the bubble-shooter game simulation core (src/script.js).

The game's geometry uses only rational constants and the single irrational
constant `Math.sqrt(3)` (the hexagonal row height).  We therefore model the
JS number line by the quadratic field ℚ(√3): every coordinate arising in the
grid logic is exactly representable there, all comparisons are decidable, and
all game functions are executable.  The game layer itself is written over an
arbitrary linearly ordered field `K` with a floor (so that it can also be
instantiated at `ℝ`, e.g. for the trigonometric aiming code), with the value
of `Math.sqrt(3)` passed as a parameter `s3`.
-/

set_option linter.unusedSectionVars false

namespace BubbleShooter

/- Rational arithmetic is `@[irreducible]` in Batteries; re-expose it so that
concrete game states can be evaluated by `decide`. -/
unseal Rat.add Rat.sub Rat.mul Rat.inv

/-- An element `a + b·√3` of the quadratic field ℚ(√3). -/
structure GVal where
  a : ℚ
  b : ℚ
deriving DecidableEq

namespace GVal

/-- Semantics: the real number denoted by a `GVal`. -/
noncomputable def toReal (x : GVal) : ℝ := (x.a : ℝ) + (x.b : ℝ) * Real.sqrt 3

theorem sqrt3_pos : (0:ℝ) < Real.sqrt 3 := Real.sqrt_pos.mpr (by norm_num)

theorem sq_sqrt3 : Real.sqrt 3 * Real.sqrt 3 = 3 := Real.mul_self_sqrt (by norm_num)

theorem irrational_sqrt3 : Irrational (Real.sqrt 3) :=
  (Nat.prime_three).irrational_sqrt

instance : Zero GVal := ⟨⟨0, 0⟩⟩
instance : One GVal := ⟨⟨1, 0⟩⟩
instance : Add GVal := ⟨fun x y => ⟨x.a + y.a, x.b + y.b⟩⟩
instance : Neg GVal := ⟨fun x => ⟨-x.a, -x.b⟩⟩
instance : Sub GVal := ⟨fun x y => ⟨x.a - y.a, x.b - y.b⟩⟩
instance : Mul GVal := ⟨fun x y => ⟨x.a * y.a + 3 * (x.b * y.b), x.a * y.b + x.b * y.a⟩⟩
instance : Inv GVal :=
  ⟨fun x => ⟨x.a / (x.a ^ 2 - 3 * x.b ^ 2), -x.b / (x.a ^ 2 - 3 * x.b ^ 2)⟩⟩
instance : Div GVal := ⟨fun x y => x * y⁻¹⟩
instance : SMul ℕ GVal := ⟨fun n x => ⟨n * x.a, n * x.b⟩⟩
instance : SMul ℤ GVal := ⟨fun n x => ⟨n * x.a, n * x.b⟩⟩
instance : SMul ℚ GVal := ⟨fun q x => ⟨q * x.a, q * x.b⟩⟩
instance : SMul ℚ≥0 GVal := ⟨fun q x => ⟨(q : ℚ) * x.a, (q : ℚ) * x.b⟩⟩
instance : NatCast GVal := ⟨fun n => ⟨n, 0⟩⟩
instance : IntCast GVal := ⟨fun n => ⟨n, 0⟩⟩
instance : RatCast GVal := ⟨fun q => ⟨q, 0⟩⟩
instance : NNRatCast GVal := ⟨fun q => ⟨(q : ℚ), 0⟩⟩
instance : Pow GVal ℕ := ⟨fun x n => npowRec n x⟩
instance : Pow GVal ℤ := ⟨fun x n => zpowRec npowRec n x⟩

theorem zero_a : (0 : GVal).a = 0 := rfl
theorem zero_b : (0 : GVal).b = 0 := rfl
theorem one_a : (1 : GVal).a = 1 := rfl
theorem one_b : (1 : GVal).b = 0 := rfl
theorem add_a (x y : GVal) : (x + y).a = x.a + y.a := rfl
theorem add_b (x y : GVal) : (x + y).b = x.b + y.b := rfl
theorem neg_a (x : GVal) : (-x).a = -x.a := rfl
theorem neg_b (x : GVal) : (-x).b = -x.b := rfl
theorem sub_a (x y : GVal) : (x - y).a = x.a - y.a := rfl
theorem sub_b (x y : GVal) : (x - y).b = x.b - y.b := rfl
theorem mul_a (x y : GVal) : (x * y).a = x.a * y.a + 3 * (x.b * y.b) := rfl
theorem mul_b (x y : GVal) : (x * y).b = x.a * y.b + x.b * y.a := rfl
theorem inv_a (x : GVal) : (x⁻¹).a = x.a / (x.a ^ 2 - 3 * x.b ^ 2) := rfl
theorem inv_b (x : GVal) : (x⁻¹).b = -x.b / (x.a ^ 2 - 3 * x.b ^ 2) := rfl
theorem natCast_a (n : ℕ) : (n : GVal).a = n := rfl
theorem natCast_b (n : ℕ) : (n : GVal).b = 0 := rfl
theorem intCast_a (n : ℤ) : (n : GVal).a = n := rfl
theorem intCast_b (n : ℤ) : (n : GVal).b = 0 := rfl
theorem ratCast_a (q : ℚ) : (q : GVal).a = q := rfl
theorem ratCast_b (q : ℚ) : (q : GVal).b = 0 := rfl

theorem toReal_zero : toReal 0 = 0 := by
  simp [toReal, zero_a, zero_b]

theorem toReal_one : toReal 1 = 1 := by
  simp [toReal, one_a, one_b]

theorem toReal_add (x y : GVal) : toReal (x + y) = toReal x + toReal y := by
  simp only [toReal, add_a, add_b]
  push_cast
  ring

theorem toReal_neg (x : GVal) : toReal (-x) = -toReal x := by
  simp only [toReal, neg_a, neg_b]
  push_cast
  ring

theorem toReal_sub (x y : GVal) : toReal (x - y) = toReal x - toReal y := by
  simp only [toReal, sub_a, sub_b]
  push_cast
  ring

theorem toReal_mul (x y : GVal) : toReal (x * y) = toReal x * toReal y := by
  simp only [toReal, mul_a, mul_b]
  push_cast
  linear_combination (-(x.b : ℝ) * (y.b : ℝ)) * sq_sqrt3

theorem toReal_natCast (n : ℕ) : toReal (n : GVal) = n := by
  simp [toReal, natCast_a, natCast_b]

theorem toReal_intCast (n : ℤ) : toReal (n : GVal) = n := by
  simp [toReal, intCast_a, intCast_b]

theorem toReal_ratCast (q : ℚ) : toReal (q : GVal) = q := by
  simp [toReal, ratCast_a, ratCast_b]

theorem toReal_nnratCast (q : ℚ≥0) : toReal (q : GVal) = q := by
  show (((q : ℚ) : ℝ) + ((0 : ℚ) : ℝ) * Real.sqrt 3) = _
  push_cast
  ring

theorem toReal_nsmul (n : ℕ) (x : GVal) : toReal (n • x) = n • toReal x := by
  show toReal ⟨n * x.a, n * x.b⟩ = _
  simp only [toReal, nsmul_eq_mul]
  push_cast
  ring

theorem toReal_zsmul (n : ℤ) (x : GVal) : toReal (n • x) = n • toReal x := by
  show toReal ⟨n * x.a, n * x.b⟩ = _
  simp only [toReal, zsmul_eq_mul]
  push_cast
  ring

theorem toReal_qsmul (q : ℚ) (x : GVal) : toReal (q • x) = q • toReal x := by
  show toReal ⟨q * x.a, q * x.b⟩ = _
  simp only [toReal, Rat.smul_def]
  push_cast
  ring

theorem toReal_nnqsmul (q : ℚ≥0) (x : GVal) : toReal (q • x) = q • toReal x := by
  show toReal ⟨(q : ℚ) * x.a, (q : ℚ) * x.b⟩ = _
  simp only [toReal, NNRat.smul_def]
  push_cast
  ring

/-- No rational squares to 3 (equivalently, √3 is irrational). -/
theorem rat_sq_ne_three (q : ℚ) : q ^ 2 ≠ 3 := by
  intro h
  have hR : ((q : ℝ)) ^ 2 = 3 := by exact_mod_cast h
  have habs : Real.sqrt 3 = |(q : ℝ)| := by
    rw [← hR, Real.sqrt_sq_eq_abs]
  have : Real.sqrt 3 = ((|q| : ℚ) : ℝ) := by
    rw [habs]; push_cast; rfl
  exact irrational_sqrt3 ⟨|q|, this.symm⟩

/-- The conjugate norm `a² - 3b²` vanishes only at 0. -/
theorem norm_ne_zero {x : GVal} (hx : ¬(x.a = 0 ∧ x.b = 0)) :
    x.a ^ 2 - 3 * x.b ^ 2 ≠ 0 := by
  intro hd
  by_cases hb : x.b = 0
  · have : x.a ^ 2 = 0 := by rw [hb] at hd; ring_nf at hd ⊢; linarith
    have ha : x.a = 0 := by
      nlinarith [sq_nonneg x.a, this]
    exact hx ⟨ha, hb⟩
  · have hb2 : x.b ^ 2 ≠ 0 := pow_ne_zero 2 hb
    have : (x.a / x.b) ^ 2 = 3 := by
      rw [div_pow, div_eq_iff hb2]
      linarith
    exact rat_sq_ne_three _ this

theorem toReal_eq_zero {x : GVal} (h : toReal x = 0) : x.a = 0 ∧ x.b = 0 := by
  rcases x with ⟨a, b⟩
  simp only [toReal] at h
  by_cases hb : b = 0
  · subst hb
    simp only [Rat.cast_zero, zero_mul, add_zero] at h
    exact ⟨by exact_mod_cast h, rfl⟩
  · exfalso
    have hbR : (b : ℝ) ≠ 0 := by exact_mod_cast hb
    have hmul : (b:ℝ) * Real.sqrt 3 = -(a:ℝ) := by linarith
    have hsq : Real.sqrt 3 = ((-(a / b) : ℚ) : ℝ) := by
      push_cast
      rw [← neg_div, ← hmul, mul_comm, mul_div_assoc, div_self hbR, mul_one]
    exact irrational_sqrt3 ⟨-(a / b), hsq.symm⟩

theorem toReal_injective : Function.Injective toReal := by
  intro x y h
  have hsub : toReal (x - y) = 0 := by
    rw [toReal_sub, h, sub_self]
  have h2 := toReal_eq_zero hsub
  rw [sub_a, sub_b] at h2
  rcases x with ⟨a, b⟩; rcases y with ⟨c, d⟩
  simp only at h2
  have : a = c := by linarith [h2.1]
  have : b = d := by linarith [h2.2]
  simp_all

theorem toReal_inv (x : GVal) : toReal x⁻¹ = (toReal x)⁻¹ := by
  by_cases hx : x.a = 0 ∧ x.b = 0
  · have hx0 : toReal x = 0 := by
      simp [toReal, hx.1, hx.2]
    have hi : toReal x⁻¹ = 0 := by
      simp [toReal, inv_a, inv_b, hx.1, hx.2]
    rw [hi, hx0, inv_zero]
  · have hden : x.a ^ 2 - 3 * x.b ^ 2 ≠ 0 := norm_ne_zero hx
    have hD : ((x.a : ℝ) ^ 2 - 3 * (x.b : ℝ) ^ 2) ≠ 0 := by
      exact_mod_cast hden
    have hinv : toReal x⁻¹ =
        ((x.a : ℝ) + (-(x.b : ℝ)) * Real.sqrt 3) /
          ((x.a : ℝ) ^ 2 - 3 * (x.b : ℝ) ^ 2) := by
      simp only [toReal, inv_a, inv_b]
      push_cast
      ring
    have key : toReal x * toReal x⁻¹ = 1 := by
      rw [hinv, mul_div_assoc', div_eq_one_iff_eq hD]
      simp only [toReal]
      linear_combination (-(x.b : ℝ) * (x.b : ℝ)) * sq_sqrt3
    exact (eq_inv_of_mul_eq_one_right key)

theorem toReal_div (x y : GVal) : toReal (x / y) = toReal x / toReal y := by
  show toReal (x * y⁻¹) = _
  rw [toReal_mul, toReal_inv, div_eq_mul_inv]

theorem toReal_npow (x : GVal) (n : ℕ) : toReal (x ^ n) = toReal x ^ n := by
  induction n with
  | zero => simpa using toReal_one
  | succ k ih =>
    show toReal (npowRec (k + 1) x) = _
    simp only [npowRec]
    rw [toReal_mul]
    show toReal (x ^ k) * toReal x = _
    rw [ih, pow_succ]

theorem toReal_zpow (x : GVal) (n : ℤ) : toReal (x ^ n) = toReal x ^ n := by
  rcases n with m | m
  · show toReal (x ^ m) = toReal x ^ (Int.ofNat m)
    rw [toReal_npow]
    norm_cast
  · show toReal ((x ^ (m + 1))⁻¹) = toReal x ^ (Int.negSucc m)
    rw [toReal_inv, toReal_npow, zpow_negSucc]

/-- Computable test for `0 ≤ a + b·√3`, by sign analysis and squaring. -/
def isNonneg (x : GVal) : Bool :=
  if 0 ≤ x.a then
    if 0 ≤ x.b then true
    else decide (3 * x.b ^ 2 ≤ x.a ^ 2)
  else
    if 0 ≤ x.b then decide (x.a ^ 2 ≤ 3 * x.b ^ 2)
    else false

theorem isNonneg_iff (x : GVal) : isNonneg x = true ↔ 0 ≤ toReal x := by
  rcases x with ⟨a, b⟩
  have h3 := sq_sqrt3
  have hs := sqrt3_pos
  unfold isNonneg toReal
  split_ifs with ha hb hb
  · have ha' : (0:ℝ) ≤ (a : ℝ) := by exact_mod_cast ha
    have hb' : (0:ℝ) ≤ (b : ℝ) := by exact_mod_cast hb
    constructor
    · intro _
      have : 0 ≤ (b : ℝ) * Real.sqrt 3 := mul_nonneg hb' (le_of_lt hs)
      simp only
      linarith
    · intro _
      rfl
  · have ha' : (0:ℝ) ≤ (a : ℝ) := by exact_mod_cast ha
    have hb' : (b:ℝ) < 0 := by exact_mod_cast (not_le.mp hb)
    rw [decide_eq_true_eq]
    have hnb : 0 ≤ (-(b:ℝ)) * Real.sqrt 3 := mul_nonneg (by linarith) (le_of_lt hs)
    constructor
    · intro h
      have h' : (3:ℝ) * (b:ℝ) ^ 2 ≤ (a:ℝ) ^ 2 := by exact_mod_cast h
      simp only
      nlinarith [h', hnb, ha', h3]
    · intro h
      simp only at h
      have : (3:ℝ) * (b:ℝ) ^ 2 ≤ (a:ℝ) ^ 2 := by nlinarith [h, hnb, ha', h3]
      exact_mod_cast this
  · have ha' : (a:ℝ) < 0 := by exact_mod_cast (not_le.mp ha)
    have hb' : (0:ℝ) ≤ (b:ℝ) := by exact_mod_cast hb
    rw [decide_eq_true_eq]
    have hbs : 0 ≤ (b:ℝ) * Real.sqrt 3 := mul_nonneg hb' (le_of_lt hs)
    constructor
    · intro h
      have h' : (a:ℝ) ^ 2 ≤ 3 * (b:ℝ) ^ 2 := by exact_mod_cast h
      simp only
      nlinarith [h', hbs, ha', h3]
    · intro h
      simp only at h
      have : (a:ℝ) ^ 2 ≤ (3:ℝ) * (b:ℝ) ^ 2 := by nlinarith [h, hbs, ha', h3]
      exact_mod_cast this
  · have ha' : (a:ℝ) < 0 := by exact_mod_cast (not_le.mp ha)
    have hb' : (b:ℝ) < 0 := by exact_mod_cast (not_le.mp hb)
    constructor
    · intro hcon
      cases hcon
    · intro h
      exfalso
      simp only at h
      have : (b:ℝ) * Real.sqrt 3 < 0 := mul_neg_of_neg_of_pos hb' hs
      linarith

/-- Computable `x ≤ y` on ℚ(√3). -/
def ble (x y : GVal) : Bool := isNonneg (y - x)

/-- Computable `x < y` on ℚ(√3). -/
def blt (x y : GVal) : Bool := ! isNonneg (x - y)

instance : Max GVal := ⟨fun x y => if ble x y then y else x⟩
instance : Min GVal := ⟨fun x y => if ble x y then x else y⟩

theorem ble_iff_toReal (x y : GVal) : ble x y = true ↔ toReal x ≤ toReal y := by
  rw [ble, isNonneg_iff, toReal_sub]
  constructor <;> intro h <;> linarith

theorem toReal_max (x y : GVal) : toReal (max x y) = max (toReal x) (toReal y) := by
  show toReal (if ble x y then y else x) = _
  by_cases h : ble x y
  · rw [if_pos h, max_eq_right ((ble_iff_toReal x y).mp h)]
  · have h2 := mt (ble_iff_toReal x y).mpr h
    rw [if_neg h, max_eq_left (le_of_not_le h2)]

theorem toReal_min (x y : GVal) : toReal (min x y) = min (toReal x) (toReal y) := by
  show toReal (if ble x y then x else y) = _
  by_cases h : ble x y
  · rw [if_pos h, min_eq_left ((ble_iff_toReal x y).mp h)]
  · have h2 := mt (ble_iff_toReal x y).mpr h
    rw [if_neg h, min_eq_right (le_of_not_le h2)]

theorem blt_iff_toReal (x y : GVal) : blt x y = true ↔ toReal x < toReal y := by
  rw [blt, Bool.not_eq_true']
  constructor
  · intro h
    have : ¬ (0 ≤ toReal (x - y)) := by
      intro hc
      rw [(isNonneg_iff (x - y)).mpr hc] at h
      cases h
    rw [toReal_sub] at this
    linarith [lt_of_not_le (fun hle : toReal y ≤ toReal x => this (by linarith))]
  · intro hlt
    cases hv : isNonneg (x - y)
    · rfl
    · have := (isNonneg_iff (x - y)).mp hv
      rw [toReal_sub] at this
      linarith

instance : LE GVal := ⟨fun x y => ble x y = true⟩
instance : LT GVal := ⟨fun x y => blt x y = true⟩

theorem le_iff_toReal (x y : GVal) : x ≤ y ↔ toReal x ≤ toReal y := ble_iff_toReal x y

theorem lt_iff_toReal (x y : GVal) : x < y ↔ toReal x < toReal y := blt_iff_toReal x y

theorem ble_iff (x y : GVal) : ble x y = true ↔ x ≤ y := Iff.rfl

theorem blt_iff (x y : GVal) : blt x y = true ↔ x < y := Iff.rfl

instance : DecidableEq GVal := fun x y =>
  decidable_of_iff (x.a = y.a ∧ x.b = y.b) (by cases x; cases y; simp)

instance decLe (x y : GVal) : Decidable (x ≤ y) := instDecidableEqBool (ble x y) true

instance decLt (x y : GVal) : Decidable (x < y) := instDecidableEqBool (blt x y) true

instance : LinearOrder GVal where
  le_refl a := (le_iff_toReal a a).mpr le_rfl
  le_trans a b c hab hbc :=
    (le_iff_toReal a c).mpr
      (le_trans ((le_iff_toReal a b).mp hab) ((le_iff_toReal b c).mp hbc))
  le_antisymm a b h1 h2 :=
    toReal_injective (le_antisymm ((le_iff_toReal a b).mp h1) ((le_iff_toReal b a).mp h2))
  le_total a b :=
    (le_total (toReal a) (toReal b)).imp (le_iff_toReal a b).mpr (le_iff_toReal b a).mpr
  lt_iff_le_not_le a b := by
    rw [lt_iff_toReal, le_iff_toReal, le_iff_toReal]
    exact lt_iff_le_not_le
  decidableLE := decLe
  decidableEq := inferInstance
  decidableLT := decLt
  min := Min.min
  max := Max.max
  min_def a b := rfl
  max_def a b := rfl

instance instField : Field GVal :=
  Function.Injective.field toReal toReal_injective toReal_zero toReal_one toReal_add
    toReal_mul toReal_neg toReal_sub toReal_inv toReal_div toReal_nsmul toReal_zsmul
    toReal_nnqsmul toReal_qsmul toReal_npow toReal_zpow toReal_natCast toReal_intCast
    toReal_nnratCast toReal_ratCast

instance instLOF : LinearOrderedField GVal :=
  { instField, (inferInstance : LinearOrder GVal) with
    add_le_add_left := fun a b hab c => by
      rw [le_iff_toReal, toReal_add, toReal_add]
      exact add_le_add_left ((le_iff_toReal a b).mp hab) _
    zero_le_one := by
      rw [le_iff_toReal, toReal_zero, toReal_one]
      norm_num
    mul_pos := fun a b ha hb => by
      rw [lt_iff_toReal, toReal_zero, toReal_mul]
      have ha' := (lt_iff_toReal 0 a).mp ha
      have hb' := (lt_iff_toReal 0 b).mp hb
      rw [toReal_zero] at ha' hb'
      exact mul_pos ha' hb' }

/-- Fuel-driven bisection for the integer square root (structurally recursive,
so that it reduces inside the kernel, unlike `Nat.sqrt`). -/
def isqrtGo (n : ℕ) : ℕ → ℕ → ℕ → ℕ
  | 0, lo, _ => lo
  | fuel + 1, lo, hi =>
    if hi ≤ lo + 1 then lo
    else
      let m := (lo + hi) / 2
      if m * m ≤ n then isqrtGo n fuel m hi else isqrtGo n fuel lo m

/-- Kernel-reducible integer square root: the largest `s` with `s·s ≤ n`. -/
def isqrt (n : ℕ) : ℕ := isqrtGo n (n + 1) 0 (n + 1)

theorem isqrtGo_spec (n : ℕ) :
    ∀ fuel lo hi, lo * lo ≤ n → n < hi * hi → lo < hi → hi ≤ lo + fuel →
      isqrtGo n fuel lo hi * isqrtGo n fuel lo hi ≤ n ∧
        n < (isqrtGo n fuel lo hi + 1) * (isqrtGo n fuel lo hi + 1) := by
  intro fuel
  induction fuel with
  | zero =>
    intro lo hi _ _ h3 h4
    exact absurd h3 (by omega)
  | succ f ih =>
    intro lo hi h1 h2 h3 h4
    simp only [isqrtGo]
    by_cases hcl : hi ≤ lo + 1
    · rw [if_pos hcl]
      have : hi = lo + 1 := by omega
      subst this
      exact ⟨h1, h2⟩
    · rw [if_neg hcl]
      have hm1 : lo < (lo + hi) / 2 := by omega
      have hm2 : (lo + hi) / 2 < hi := by omega
      by_cases hq : (lo + hi) / 2 * ((lo + hi) / 2) ≤ n
      · rw [if_pos hq]
        exact ih _ hi hq h2 hm2 (by omega)
      · rw [if_neg hq]
        exact ih lo _ h1 (by omega) hm1 (by omega)

theorem isqrt_spec (n : ℕ) :
    isqrt n * isqrt n ≤ n ∧ n < (isqrt n + 1) * (isqrt n + 1) := by
  refine isqrtGo_spec n (n + 1) 0 (n + 1) (by omega) ?_ (by omega) (by omega)
  nlinarith

/-- Computable floor on ℚ(√3).  Writing `x = (M + T·√3)/D` over a common
positive denominator `D`, we have `⌊x⌋ = (M + ⌊T·√3⌋) / D` (floor division),
and `⌊T·√3⌋ = ⌊√(3T²)⌋ = isqrt (3T²)` when `T ≥ 0`, `-⌈√(3T²)⌉` otherwise. -/
def floor (x : GVal) : ℤ :=
  let M : ℤ := x.a.num * (x.b.den : ℤ)
  let T : ℤ := x.b.num * (x.a.den : ℤ)
  let D : ℤ := (x.a.den : ℤ) * (x.b.den : ℤ)
  let k : ℕ := 3 * T.natAbs ^ 2
  let s : ℕ := isqrt k
  let S : ℤ := if 0 ≤ T then (s : ℤ) else -(if s * s = k then (s : ℤ) else (s : ℤ) + 1)
  (M + S) / D

theorem int_floor_div (y : ℝ) (D : ℤ) (hD : 0 < D) : ⌊y / (D : ℝ)⌋ = ⌊y⌋ / D := by
  have hD' : (0:ℝ) < (D:ℝ) := by exact_mod_cast hD
  have hdm := Int.ediv_add_emod ⌊y⌋ D
  have hr0 : 0 ≤ ⌊y⌋ % D := Int.emod_nonneg ⌊y⌋ (ne_of_gt hD)
  have hrD : ⌊y⌋ % D < D := Int.emod_lt_of_pos ⌊y⌋ hD
  rw [Int.floor_eq_iff]
  constructor
  · rw [le_div_iff₀ hD']
    have h1 : (D : ℝ) * ((⌊y⌋ / D : ℤ) : ℝ) ≤ (⌊y⌋ : ℝ) := by
      have : D * (⌊y⌋ / D) ≤ ⌊y⌋ := by omega
      exact_mod_cast this
    calc ((⌊y⌋ / D : ℤ) : ℝ) * (D : ℝ) = (D:ℝ) * ((⌊y⌋ / D : ℤ) : ℝ) := by ring
    _ ≤ (⌊y⌋ : ℝ) := h1
    _ ≤ y := Int.floor_le y
  · rw [div_lt_iff₀ hD']
    have h2 : (⌊y⌋ : ℝ) + 1 ≤ ((⌊y⌋ / D : ℤ) + 1 : ℤ) * (D : ℝ) := by
      have : ⌊y⌋ + 1 ≤ (⌊y⌋ / D + 1) * D := by
        have : (⌊y⌋ / D + 1) * D = D * (⌊y⌋ / D) + ⌊y⌋ % D + (D - ⌊y⌋ % D) := by ring
        omega
      exact_mod_cast this
    calc y < (⌊y⌋ : ℝ) + 1 := Int.lt_floor_add_one y
    _ ≤ ((⌊y⌋ / D : ℤ) + 1 : ℤ) * (D : ℝ) := h2
    _ = (((⌊y⌋ / D : ℤ) : ℝ) + 1) * (D : ℝ) := by push_cast; ring

theorem floor_sqrt_nat (k : ℕ) : ⌊Real.sqrt k⌋ = isqrt k := by
  obtain ⟨hle, hlt⟩ := isqrt_spec k
  rw [Int.floor_eq_iff]
  constructor
  · have h2 : ((isqrt k : ℕ) : ℝ) ≤ Real.sqrt k := by
      rw [Real.le_sqrt (by positivity) (by positivity)]
      exact_mod_cast (by nlinarith : isqrt k ^ 2 ≤ k)
    push_cast
    push_cast at h2
    linarith
  · have h3 : Real.sqrt k < ((isqrt k + 1 : ℕ) : ℝ) := by
      rw [Real.sqrt_lt' (by positivity)]
      exact_mod_cast (by nlinarith : k < (isqrt k + 1) ^ 2)
    push_cast
    push_cast at h3
    linarith

theorem ceil_sqrt_nat (k : ℕ) :
    ⌈Real.sqrt k⌉ =
      if isqrt k * isqrt k = k then (isqrt k : ℤ) else (isqrt k : ℤ) + 1 := by
  obtain ⟨hle, hlt⟩ := isqrt_spec k
  split_ifs with hexact
  · have heq : Real.sqrt k = ((isqrt k : ℕ) : ℝ) := by
      rw [show ((k : ℕ) : ℝ) = ((isqrt k : ℕ) : ℝ) * ((isqrt k : ℕ) : ℝ) by
        exact_mod_cast hexact.symm]
      exact Real.sqrt_mul_self (by positivity)
    rw [heq]
    exact_mod_cast Int.ceil_natCast (isqrt k)
  · have hlt2 : isqrt k * isqrt k < k := lt_of_le_of_ne hle hexact
    rw [Int.ceil_eq_iff]
    constructor
    · have h2 : ((isqrt k : ℕ) : ℝ) < Real.sqrt k := by
        rw [Real.lt_sqrt (by positivity)]
        exact_mod_cast (by nlinarith : isqrt k ^ 2 < k)
      push_cast
      push_cast at h2
      linarith
    · have h3 : Real.sqrt k < ((isqrt k + 1 : ℕ) : ℝ) := by
        rw [Real.sqrt_lt' (by positivity)]
        exact_mod_cast (by nlinarith : k < (isqrt k + 1) ^ 2)
      push_cast
      push_cast at h3
      linarith

theorem intCast_mul_sqrt3 (T : ℤ) :
    (T : ℝ) * Real.sqrt 3 =
      if 0 ≤ T then Real.sqrt (3 * T.natAbs ^ 2) else -Real.sqrt (3 * T.natAbs ^ 2) := by
  have habs : ((T.natAbs : ℕ) : ℝ) = |(T : ℝ)| := by
    simp [Int.cast_natAbs]
  have hsq : Real.sqrt (3 * ((T.natAbs : ℕ) : ℝ) ^ 2) = Real.sqrt 3 * |(T : ℝ)| := by
    rw [Real.sqrt_mul (by norm_num), habs]
    rw [Real.sqrt_sq (abs_nonneg _)]
  split_ifs with hT
  · rw [hsq]
    rw [abs_of_nonneg (by exact_mod_cast hT)]
    ring
  · rw [hsq]
    rw [abs_of_neg (by exact_mod_cast (not_le.mp hT))]
    ring

theorem floor_eq_floor_toReal (x : GVal) : floor x = ⌊toReal x⌋ := by
  have hda : ((x.a.den : ℕ) : ℝ) ≠ 0 :=
    Nat.cast_ne_zero.mpr x.a.den_nz
  have hdb : ((x.b.den : ℕ) : ℝ) ≠ 0 :=
    Nat.cast_ne_zero.mpr x.b.den_nz
  have hD : (0:ℤ) < (x.a.den : ℤ) * (x.b.den : ℤ) := by
    have h1 : 0 < x.a.den := Nat.pos_of_ne_zero x.a.den_nz
    have h2 : 0 < x.b.den := Nat.pos_of_ne_zero x.b.den_nz
    have h1' : (0:ℤ) < (x.a.den : ℤ) := by exact_mod_cast h1
    have h2' : (0:ℤ) < (x.b.den : ℤ) := by exact_mod_cast h2
    positivity
  have hrepr : toReal x =
      (((x.a.num * (x.b.den : ℤ) : ℤ) : ℝ) + ((x.b.num * (x.a.den : ℤ) : ℤ) : ℝ) * Real.sqrt 3) /
        (((x.a.den : ℤ) * (x.b.den : ℤ) : ℤ) : ℝ) := by
    rw [toReal, Rat.cast_def, Rat.cast_def]
    push_cast
    field_simp
    ring
  rw [hrepr, int_floor_div _ _ hD]
  have hfl : ⌊((x.a.num * (x.b.den : ℤ) : ℤ) : ℝ) +
        ((x.b.num * (x.a.den : ℤ) : ℤ) : ℝ) * Real.sqrt 3⌋
      = x.a.num * (x.b.den : ℤ) +
        (if 0 ≤ x.b.num * (x.a.den : ℤ)
         then ((isqrt (3 * (x.b.num * (x.a.den : ℤ)).natAbs ^ 2) : ℕ) : ℤ)
         else -(if isqrt (3 * (x.b.num * (x.a.den : ℤ)).natAbs ^ 2) *
                    isqrt (3 * (x.b.num * (x.a.den : ℤ)).natAbs ^ 2) =
                  3 * (x.b.num * (x.a.den : ℤ)).natAbs ^ 2
                then ((isqrt (3 * (x.b.num * (x.a.den : ℤ)).natAbs ^ 2) : ℕ) : ℤ)
                else ((isqrt (3 * (x.b.num * (x.a.den : ℤ)).natAbs ^ 2) : ℕ) : ℤ) + 1)) := by
    rw [Int.floor_int_add]
    congr 1
    rw [intCast_mul_sqrt3]
    have hc : (3:ℝ) * (((x.b.num * (x.a.den : ℤ)).natAbs : ℕ) : ℝ) ^ 2 =
        ((3 * (x.b.num * (x.a.den : ℤ)).natAbs ^ 2 : ℕ) : ℝ) := by
      push_cast
      ring
    by_cases hT : 0 ≤ x.b.num * (x.a.den : ℤ)
    · rw [if_pos hT, if_pos hT, hc]
      exact floor_sqrt_nat _
    · rw [if_neg hT, if_neg hT, hc, Int.floor_neg, ceil_sqrt_nat]
  rw [hfl]
  simp only [floor]

theorem gc_coe_floor : GaloisConnection ((↑) : ℤ → GVal) floor := by
  intro z x
  show ((z : ℤ) : GVal) ≤ x ↔ z ≤ floor x
  rw [le_iff_toReal, toReal_intCast, floor_eq_floor_toReal]
  exact (Int.le_floor).symm

instance : FloorRing GVal := FloorRing.ofFloor GVal floor gc_coe_floor

theorem toReal_intFloor (x : GVal) : ⌊x⌋ = ⌊toReal x⌋ := floor_eq_floor_toReal x

theorem toReal_ofNat (n : ℕ) [n.AtLeastTwo] :
    toReal (OfNat.ofNat n) = (OfNat.ofNat n : ℝ) := by
  show toReal ((n : ℕ) : GVal) = _
  rw [toReal_natCast]
  rfl

theorem toReal_round (x : GVal) : round x = round (toReal x) := by
  rw [round_eq, round_eq, toReal_intFloor]
  congr 1
  rw [toReal_add]
  congr 1
  rw [toReal_div, toReal_one, toReal_ofNat]

example : (⌊(⟨7, 2⟩ : GVal)⌋ : ℤ) = 10 := by decide
example : (⌊(⟨-7, -2⟩ : GVal)⌋ : ℤ) = -11 := by decide
example : (⌊(⟨10, 0⟩ : GVal) / ⟨0, 20⟩ + 1 / 2⌋ : ℤ) = 0 := by decide
example : ¬ ((⟨20, 20⟩ : GVal) ≤ 40) := by decide
example : ((⟨20, 20⟩ : GVal) ≤ 80) := by decide

/-- The value of the source's `Math.sqrt(3)` inside ℚ(√3). -/
def sqrt3 : GVal := ⟨0, 1⟩

theorem toReal_sqrt3 : toReal sqrt3 = Real.sqrt 3 := by
  simp [toReal, sqrt3]

theorem sqrt3_sq : sqrt3 ^ 2 = 3 := by decide

theorem sqrt3_pos' : (0 : GVal) < sqrt3 := by decide

end GVal

/-!
## The game layer (src/script.js)

Every definition below is a direct translation of the correspondingly named
function of `src/script.js`, over an arbitrary linearly ordered field `K`
with floor (JS numbers idealised as exact arithmetic).  The source's
`Math.sqrt(3)` is passed as the parameter `s3`.  JS object identity (used by
`Set` membership, `!==` and `indexOf`) is modelled by a numeric `id` field;
the JS arrays `bubbles` and `gridBubbles` hold the same objects, so every
in-place mutation of a bubble is mirrored into both lists.
-/

section GameConstants

variable (K : Type) [LinearOrderedField K]

-- Game configuration, script.js lines 1-15.
def CANVAS_WIDTH : K := 400
def CANVAS_HEIGHT : K := 600
def BUBBLE_RADIUS : K := 20
def BUBBLE_DIAMETER : K := BUBBLE_RADIUS K * 2
def SHOOT_SPEED : K := 10
def INITIAL_GRID_ROWS : ℕ := 5
def GRID_COLS : ℕ := 10
def CANNON_HEIGHT : K := 40
def CANNON_WIDTH : K := 60
def POP_SCORE : ℤ := 10
def BUBBLE_COLORS : List String := ["red", "green", "blue", "yellow", "purple"]

end GameConstants

/-- JS `Math.round x = ⌊x + 0.5⌋` (round half toward `+∞`). -/
def mathRound {K : Type} [LinearOrderedField K] [FloorRing K] (x : K) : ℤ :=
  ⌊x + 1 / 2⌋

theorem mathRound_eq_round {K : Type} [LinearOrderedField K] [FloorRing K] (x : K) :
    mathRound x = round x := (round_eq x).symm

/-- JS `%` on integers: remainder with the sign of the dividend (`Int.tmod`). -/
def jsMod (a b : ℤ) : ℤ := Int.tmod a b

section GameDefs

variable {K : Type} [LinearOrderedField K] [FloorRing K]
variable [DecidableEq K] [DecidableRel ((· < ·) : K → K → Prop)]
  [DecidableRel ((· ≤ ·) : K → K → Prop)]

/-- The `Bubble` class (script.js lines 69-80), with an `id` modelling JS
object identity. -/
structure Bubble (K : Type) where
  x : K
  y : K
  color : String
  radius : K
  isGrid : Bool
  vx : K
  vy : K
  isPopping : Bool
  popFrame : ℕ
  id : ℕ
deriving DecidableEq

/-- `new Bubble(x, y, color, isGrid)`. -/
def newBubble (id : ℕ) (x y : K) (color : String) (isGrid : Bool) : Bubble K :=
  { x := x, y := y, color := color, radius := BUBBLE_RADIUS K, isGrid := isGrid,
    vx := 0, vy := 0, isPopping := false, popFrame := 0, id := id }

/-- Squared distance between two bubbles' centres (`dist` squares under the
root; the source compares `dist p q < c` for `c = r₁ + r₂ - 2 ≥ 0`, which is
equivalent to `distSq p q < c²`). -/
def distSq (p1 p2 : Bubble K) : K :=
  (p2.x - p1.x) ^ 2 + (p2.y - p1.y) ^ 2

/-- `Bubble.isCollidingWith` (line 112): `dist < r₁ + r₂ - 2`, squared. -/
def isCollidingWith (b other : Bubble K) : Bool :=
  decide (distSq b other < (b.radius + other.radius - 2) ^ 2)

/-- `Bubble.getNeighbors` (lines 117-125): grid bubbles other than `b`
colliding with `b`. -/
def getNeighbors (gridBubbles : List (Bubble K)) (b : Bubble K) :
    List (Bubble K) :=
  gridBubbles.filter (fun gridB => gridB.id != b.id && isCollidingWith b gridB)

/-- Result record of `getGridPosition`. -/
structure GridPos (K : Type) where
  x : K
  y : K
  row : ℤ
  col : ℤ
deriving DecidableEq

/-- `getGridPosition` (lines 54-66): nearest hex cell and its exact centre. -/
def getGridPosition (s3 : K) (x y : K) : GridPos K :=
  let colWidth := BUBBLE_DIAMETER K
  let rowHeight := BUBBLE_DIAMETER K * s3 / 2
  let row := mathRound ((y - BUBBLE_RADIUS K) / rowHeight)
  let col := mathRound ((x - BUBBLE_RADIUS K - (jsMod row 2 : K) * BUBBLE_RADIUS K) / colWidth)
  let snappedY := BUBBLE_RADIUS K + (row : K) * rowHeight
  let snappedX := BUBBLE_RADIUS K + (col : K) * colWidth + (jsMod row 2 : K) * BUBBLE_RADIUS K
  { x := snappedX, y := snappedY, row := row, col := col }

/-- `getAvailableColorsInGrid` (lines 429-435): distinct colours present in
the grid, in first-occurrence (JS `Set` insertion) order. -/
def getAvailableColorsInGrid (gridBubbles : List (Bubble K)) : List String :=
  gridBubbles.foldl
    (fun colors bubble =>
      if colors.contains bubble.color then colors else colors ++ [bubble.color]) []

/-- `getRandomBubbleColor` (lines 34-41); `r` models the `Math.random()`
draw in `[0,1)`, and `Math.floor (r * len)` indexes the array. -/
def getRandomBubbleColor (gridBubbles : List (Bubble K)) (r : ℚ) : String :=
  let availableColors := getAvailableColorsInGrid gridBubbles
  if availableColors.length > 0 then
    availableColors.getD (⌊r * availableColors.length⌋).toNat ""
  else
    BUBBLE_COLORS.getD (⌊r * BUBBLE_COLORS.length⌋).toNat ""

/-- `generateInitialGrid` (lines 183-203); `rs k` models the `k`-th
`Math.random()` draw, ids number bubbles in creation order.  The returned
list is the common initial content of `bubbles` and `gridBubbles`. -/
def generateInitialGrid (s3 : K) (rs : ℕ → ℚ) : List (Bubble K) :=
  (List.range INITIAL_GRID_ROWS).foldl
    (fun acc (r : ℕ) =>
      let isEvenRow := r % 2 == 0
      let startX := if isEvenRow then BUBBLE_RADIUS K else BUBBLE_RADIUS K + BUBBLE_RADIUS K
      (List.range (GRID_COLS - (if isEvenRow then 0 else 1))).foldl
        (fun acc (c : ℕ) =>
          let x := startX + (c : K) * BUBBLE_DIAMETER K
          let y := BUBBLE_RADIUS K + (r : K) * (BUBBLE_DIAMETER K * s3 / 2)
          if x < CANVAS_WIDTH K - BUBBLE_RADIUS K ∧ y < CANVAS_HEIGHT K / 2 then
            acc ++ [newBubble acc.length x y (getRandomBubbleColor acc (rs acc.length)) true]
          else acc)
        acc)
    []

/-- The `while (head < q.length)` worklist shared by
`getConnectedSameColorBubbles` (lines 321-342) and `checkFloatingBubbles`
(lines 377-386): `ok` is the per-neighbor admission test (colour equality
resp. trivially true), and `visited` doubles as the accumulated result —
in the source every admitted bubble enters the visited set and the result
simultaneously.  `fuel` bounds the number of dequeues (an embedding
artefact; the correctness lemma shows the supplied fuel is never
exhausted). -/
def floodAux (gridBubbles : List (Bubble K)) (ok : Bubble K → Bool) :
    ℕ → List (Bubble K) → List (Bubble K) → List (Bubble K)
  | 0, _, visited => visited
  | _ + 1, [], visited => visited
  | fuel + 1, current :: rest, visited =>
    let step := (getNeighbors gridBubbles current).foldl
      (fun (st : List (Bubble K) × List (Bubble K)) neighbor =>
        if st.2.all (fun v => v.id != neighbor.id) && ok neighbor then
          (st.1 ++ [neighbor], st.2 ++ [neighbor])
        else st)
      (rest, visited)
    floodAux gridBubbles ok fuel step.1 step.2

/-- `getConnectedSameColorBubbles` (lines 321-342). -/
def getConnectedSameColorBubbles (gridBubbles : List (Bubble K))
    (startBubble : Bubble K) : List (Bubble K) :=
  floodAux gridBubbles (fun neighbor => neighbor.color == startBubble.color)
    (gridBubbles.length + 1) [startBubble] [startBubble]

/-- `popBubbles` (lines 344-362): one score update, then each popped bubble
is marked `isPopping` (an object mutation, visible through `bubbles` too)
and spliced out of `gridBubbles`. -/
def popBubbles (gridBubbles bubbles : List (Bubble K)) (score : ℤ)
    (bubblesToPop : List (Bubble K)) :
    List (Bubble K) × List (Bubble K) × ℤ :=
  let score' := score + bubblesToPop.length * POP_SCORE
  let st := bubblesToPop.foldl
    (fun (st : List (Bubble K) × List (Bubble K)) bubble =>
      ((st.1.map (fun b => if b.id == bubble.id then { b with isPopping := true } else b)).eraseP
          (fun b => b.id == bubble.id),
        st.2.map (fun b => if b.id == bubble.id then { b with isPopping := true } else b)))
    (gridBubbles, bubbles)
  (st.1, st.2, score')

/-- `checkMatches` (lines 313-319). -/
def checkMatches (gridBubbles bubbles : List (Bubble K)) (score : ℤ)
    (startBubble : Bubble K) : List (Bubble K) × List (Bubble K) × ℤ :=
  let matchingBubbles := getConnectedSameColorBubbles gridBubbles startBubble
  if matchingBubbles.length ≥ 3 then
    popBubbles gridBubbles bubbles score matchingBubbles
  else
    (gridBubbles, bubbles, score)

/-- `checkFloatingBubbles` (lines 364-408).  The downward-index splice loop
is a `foldr` (last index processed first); disconnected bubbles are removed
from both arrays, given `isGrid = false` and `vy = 5`, awarded 5 points
each, and pushed back onto `bubbles`. -/
def ceilingSeeds (gridBubbles : List (Bubble K)) : List (Bubble K) :=
  gridBubbles.filter (fun bubble => bubble.y ≤ BUBBLE_RADIUS K * 2)

/-- Step 1 of `checkFloatingBubbles` (lines 365-386): all bubbles connected
to the near-ceiling seeds, over all colours. -/
def connectedToCeiling (gridBubbles : List (Bubble K)) : List (Bubble K) :=
  floodAux gridBubbles (fun _ => true)
    (gridBubbles.length + (ceilingSeeds gridBubbles).length + 1)
    (ceilingSeeds gridBubbles) (ceilingSeeds gridBubbles)

def checkFloatingBubbles (gridBubbles bubbles : List (Bubble K)) (score : ℤ) :
    List (Bubble K) × List (Bubble K) × ℤ :=
  let connectedToCeiling := connectedToCeiling gridBubbles
  let part := gridBubbles.foldr
    (fun bubble (st : List (Bubble K) × List (Bubble K)) =>
      if connectedToCeiling.all (fun v => v.id != bubble.id) then
        (st.1, st.2 ++ [bubble])
      else
        (bubble :: st.1, st.2))
    ([], [])
  let falling := part.2.map (fun bubble => { bubble with isGrid := false, vy := 5 })
  let bubbles' := bubbles.filter (fun b => part.2.all (fun v => v.id != b.id)) ++ falling
  (part.1, bubbles', score + 5 * part.2.length)

/-- Terminal outcomes announced by `checkGameOver`. -/
inductive Outcome where
  | lost
  | won
deriving DecidableEq

/-- The game state: script.js module-level variables (lines 17-25).
`cancelRequested` records that `cancelAnimationFrame(animationFrameId)` was
invoked during the current tick. -/
structure GameState (K : Type) where
  score : ℤ
  bubbles : List (Bubble K)
  gridBubbles : List (Bubble K)
  flyingBubble : Option (Bubble K)
  gameOver : Option Outcome
  cancelRequested : Bool

/-- `checkGameOver` (lines 410-426): loss line first, then the win check. -/
def checkGameOver (st : GameState K) : GameState K :=
  if st.gridBubbles.any (fun bubble =>
      decide (bubble.y + bubble.radius >
        CANVAS_HEIGHT K - CANNON_HEIGHT K - BUBBLE_RADIUS K * 2)) then
    { st with gameOver := some Outcome.lost, cancelRequested := true }
  else if st.gridBubbles.length == 0 && st.flyingBubble.isNone then
    { st with gameOver := some Outcome.won, cancelRequested := true }
  else st

/-- `collisionWithGrid` (lines 298-305). -/
def collisionWithGrid (gridBubbles : List (Bubble K)) (flyingBubble : Bubble K) : Bool :=
  gridBubbles.any (fun gridB => isCollidingWith flyingBubble gridB)

/-- `snapBubbleToGrid` (lines 307-311): overwrite the position with the
snapped cell centre — no occupancy check of any kind. -/
def snapBubbleToGrid (s3 : K) (bubble : Bubble K) : Bubble K :=
  let snapped := getGridPosition s3 bubble.x bubble.y
  { bubble with x := snapped.x, y := snapped.y }

/-- The flying bubble after the per-tick move (lines 274-275). -/
def moveFlying (fb : Bubble K) : Bubble K :=
  { fb with x := fb.x + fb.vx, y := fb.y + fb.vy }

/-- Wall collision handling (lines 277-283): reflect `vx`, then clamp. -/
def wallBounce (fb : Bubble K) : Bubble K :=
  if fb.x - fb.radius < 0 ∨ fb.x + fb.radius > CANVAS_WIDTH K then
    let fb1 := { fb with vx := -fb.vx }
    let fb2 := if fb1.x - fb1.radius < 0 then { fb1 with x := fb1.radius } else fb1
    if fb2.x + fb2.radius > CANVAS_WIDTH K then
      { fb2 with x := CANVAS_WIDTH K - fb2.radius }
    else fb2
  else fb

/-- The settle branch of `updateGame` (lines 286-294): mark as grid, snap,
push into `gridBubbles`, match pass, clear the flying slot, gravity pass,
game-over check. -/
def settleFlying (s3 : K) (st : GameState K) (fb : Bubble K) : GameState K :=
  let fb3 := snapBubbleToGrid s3 { fb with isGrid := true }
  let bubbles2 := st.bubbles.map (fun b => if b.id == fb3.id then fb3 else b)
  let grid2 := st.gridBubbles ++ [fb3]
  let res := checkMatches grid2 bubbles2 st.score fb3
  let res2 := checkFloatingBubbles res.1 res.2.1 res.2.2
  checkGameOver { st with
    score := res2.2.2, bubbles := res2.2.1, gridBubbles := res2.1,
    flyingBubble := none }

/-- `updateGame` (lines 271-296).  Note that only the flying bubble is ever
moved: grid bubbles are static and nothing updates falling bubbles. -/
def updateGame (s3 : K) (st : GameState K) : GameState K :=
  match st.flyingBubble with
  | none => st
  | some fb0 =>
    let fb2 := wallBounce (moveFlying fb0)
    let st1 := { st with
      bubbles := st.bubbles.map (fun b => if b.id == fb2.id then fb2 else b),
      flyingBubble := some fb2 }
    if fb2.y - fb2.radius < 0 ∨ collisionWithGrid st1.gridBubbles fb2 then
      settleFlying s3 st1 fb2
    else st1

/-!
### Frame scheduling (`gameLoop`, lines 490-494, and `checkGameOver`'s
`cancelAnimationFrame`)

`requestAnimationFrame` returns a fresh id and adds it to the pending set;
`cancelAnimationFrame i` removes `i` from the pending set (a no-op if `i`
has already fired).  One tick: the pending request whose id is stored in
`animationFrameId` fires (and is consumed), `gameLoop` runs `updateGame`
(inside which `checkGameOver` may call
`cancelAnimationFrame(animationFrameId)`) and then unconditionally executes
`animationFrameId = requestAnimationFrame(gameLoop)`.
-/

structure LoopState (K : Type) where
  game : GameState K
  pending : List ℕ
  animationFrameId : ℕ
  nextId : ℕ

/-- One execution of `gameLoop` for the fired frame `animationFrameId`. -/
def gameLoopTick (s3 : K) (ls : LoopState K) : LoopState K :=
  let pending1 := ls.pending.erase ls.animationFrameId
  let g1 := updateGame s3 { ls.game with cancelRequested := false }
  let pending2 :=
    if g1.cancelRequested then pending1.erase ls.animationFrameId else pending1
  { game := g1, pending := pending2 ++ [ls.nextId], animationFrameId := ls.nextId,
    nextId := ls.nextId + 1 }

end GameDefs

/-!
### Aiming and shooting (`handleAim`, `handleShoot`, lines 229-267)

These use `Math.atan2`, `Math.cos` and `Math.sin`, so they live over `ℝ`;
`Math.atan2 dy dx` is the argument of the complex number `dx + dy·i`
(in `(-π, π]`, with `atan2 0 0 = 0`, exactly as in JS).
-/

noncomputable section RealGame

/-- JS `Math.atan2 y x`. -/
def atan2 (y x : ℝ) : ℝ := Complex.arg ⟨x, y⟩

/-- `handleAim` (lines 229-245): returns the updated `cannonAngle`. -/
def handleAim (flyingBubble : Option (Bubble ℝ)) (cannonAngle : ℝ)
    (coords : ℝ × ℝ) : ℝ :=
  if flyingBubble.isSome then cannonAngle
  else
    let cannonCenter : ℝ × ℝ := (CANVAS_WIDTH ℝ / 2, CANVAS_HEIGHT ℝ - CANNON_HEIGHT ℝ / 2)
    let dx := coords.1 - cannonCenter.1
    let dy := coords.2 - cannonCenter.2
    if dy > 0 then cannonAngle
    else atan2 dy dx

/-- `handleShoot` (lines 247-267); `freshId` is the new object's identity and
`r` the `Math.random()` draw used for the colour. -/
def handleShoot (st : GameState ℝ) (cannonAngle : ℝ) (freshId : ℕ) (r : ℚ) :
    GameState ℝ :=
  if st.flyingBubble.isSome then st
  else
    let cannonCenter : ℝ × ℝ := (CANVAS_WIDTH ℝ / 2, CANVAS_HEIGHT ℝ - CANNON_HEIGHT ℝ / 2)
    let shootPoint : ℝ × ℝ :=
      (cannonCenter.1 + Real.cos cannonAngle * (CANNON_HEIGHT ℝ / 2),
       cannonCenter.2 + Real.sin cannonAngle * (CANNON_HEIGHT ℝ / 2))
    let fb : Bubble ℝ :=
      { newBubble freshId shootPoint.1 shootPoint.2
          (getRandomBubbleColor st.gridBubbles r) false with
        vx := Real.cos cannonAngle * SHOOT_SPEED ℝ,
        vy := Real.sin cannonAngle * SHOOT_SPEED ℝ }
    { st with flyingBubble := some fb, bubbles := st.bubbles ++ [fb] }

end RealGame

/-!
### Declarative geometry (the spec's vocabulary)

`Adjacent` is the geometric neighbor relation; reachability is
`Relation.ReflTransGen` over the per-step relations used by the two flood
fills.
-/

section Declarative

variable {K : Type} [LinearOrderedField K] [FloorRing K]
variable [DecidableEq K] [DecidableRel ((· < ·) : K → K → Prop)]
  [DecidableRel ((· ≤ ·) : K → K → Prop)]

/-- The geometric neighbor relation (distinct objects within collision
range). -/
def Adjacent (b1 b2 : Bubble K) : Prop :=
  b2.id ≠ b1.id ∧ isCollidingWith b1 b2 = true

theorem adjacent_symm {b1 b2 : Bubble K} (h : Adjacent b1 b2) : Adjacent b2 b1 := by
  obtain ⟨hid, hcol⟩ := h
  refine ⟨fun he => hid he.symm, ?_⟩
  simp only [isCollidingWith, decide_eq_true_eq] at hcol ⊢
  have : distSq b2 b1 = distSq b1 b2 := by
    simp only [distSq]
    ring
  rw [this]
  have : b2.radius + b1.radius = b1.radius + b2.radius := by ring
  rw [this]
  exact hcol

/-- One admission step of a flood fill filtered by `ok`. -/
def FloodStep (gridBubbles : List (Bubble K)) (ok : Bubble K → Bool)
    (b1 b2 : Bubble K) : Prop :=
  b2 ∈ gridBubbles ∧ Adjacent b1 b2 ∧ ok b2 = true

/-- Membership in the connected same-colour component of `seed`. -/
def InComponent (gridBubbles : List (Bubble K)) (seed b : Bubble K) : Prop :=
  Relation.ReflTransGen
    (FloodStep gridBubbles (fun n => n.color == seed.color)) seed b

/-- A grid bubble is supported when some near-ceiling grid bubble reaches it
through the geometric neighbor relation (over all colours). -/
def Supported (gridBubbles : List (Bubble K)) (b : Bubble K) : Prop :=
  ∃ s ∈ gridBubbles, s.y ≤ BUBBLE_RADIUS K * 2 ∧
    Relation.ReflTransGen (FloodStep gridBubbles (fun _ => true)) s b

end Declarative

/-!
### Correctness of the worklist flood fill

`floodAux` computes exactly the `FloodStep`-reachable set of its initial
queue (which the source seeds with the component's start bubble(s)).
-/

section FloodCorrectness

variable {K : Type} [LinearOrderedField K] [FloorRing K]
variable [DecidableEq K] [DecidableRel ((· < ·) : K → K → Prop)]
  [DecidableRel ((· ≤ ·) : K → K → Prop)]

/-- In a list whose ids are distinct, members are determined by their id. -/
theorem eq_of_mem_id {l : List (Bubble K)} (hnd : (l.map (fun b => b.id)).Nodup)
    {b c : Bubble K} (hb : b ∈ l) (hc : c ∈ l) (hid : b.id = c.id) : b = c := by
  induction l with
  | nil => cases hb
  | cons x xs ih =>
    rw [List.map_cons, List.nodup_cons] at hnd
    rcases List.mem_cons.mp hb with rfl | hb' <;>
      rcases List.mem_cons.mp hc with rfl | hc'
    · rfl
    · exact absurd (hid ▸ List.mem_map_of_mem (fun b => b.id) hc') hnd.1
    · exact absurd (hid ▸ List.mem_map_of_mem (fun b => b.id) hb') hnd.1
    · exact ih hnd.2 hb' hc'

/-- The sequential admission pass of one worklist step: neighbors in order,
each admitted iff its id is unvisited so far and it passes `ok`. -/
def admitNew (visited : List (Bubble K)) (ok : Bubble K → Bool) :
    List (Bubble K) → List (Bubble K)
  | [] => []
  | n :: ns =>
    if visited.all (fun v => v.id != n.id) && ok n then
      n :: admitNew (visited ++ [n]) ok ns
    else admitNew visited ok ns

theorem foldl_admission (ok : Bubble K → Bool) :
    ∀ (ns q acc : List (Bubble K)),
      ns.foldl
        (fun (st : List (Bubble K) × List (Bubble K)) neighbor =>
          if st.2.all (fun v => v.id != neighbor.id) && ok neighbor then
            (st.1 ++ [neighbor], st.2 ++ [neighbor])
          else st)
        (q, acc) =
      (q ++ admitNew acc ok ns, acc ++ admitNew acc ok ns)
  | [], q, acc => by simp [admitNew]
  | n :: ns, q, acc => by
    rw [List.foldl_cons]
    by_cases hc : (acc.all (fun v => v.id != n.id) && ok n) = true
    · simp only [admitNew, if_pos hc]
      rw [foldl_admission ok ns (q ++ [n]) (acc ++ [n])]
      simp
    · simp only [admitNew, if_neg hc]
      rw [foldl_admission ok ns q acc]

theorem floodAux_cons (grid : List (Bubble K)) (ok : Bubble K → Bool)
    (fuel : ℕ) (cur : Bubble K) (rest visited : List (Bubble K)) :
    floodAux grid ok (fuel + 1) (cur :: rest) visited =
      floodAux grid ok fuel
        (rest ++ admitNew visited ok (getNeighbors grid cur))
        (visited ++ admitNew visited ok (getNeighbors grid cur)) := by
  show floodAux grid ok fuel _ _ = _
  rw [foldl_admission]

theorem admitNew_mem (ok : Bubble K → Bool) :
    ∀ ns visited, ∀ b ∈ admitNew visited ok ns,
      b ∈ ns ∧ ok b = true ∧ ∀ v ∈ visited, v.id ≠ b.id
  | [], visited => by simp [admitNew]
  | n :: ns, visited => by
    intro b hb
    by_cases hc : (visited.all (fun v => v.id != n.id) && ok n) = true
    · rw [admitNew, if_pos hc] at hb
      rcases List.mem_cons.mp hb with rfl | hb'
      · rw [Bool.and_eq_true, List.all_eq_true] at hc
        refine ⟨List.mem_cons_self _ _, hc.2, fun v hv => ?_⟩
        have := hc.1 v hv
        simpa using this
      · obtain ⟨h1, h2, h3⟩ := admitNew_mem ok ns (visited ++ [n]) b hb'
        exact ⟨List.mem_cons_of_mem _ h1, h2,
          fun v hv => h3 v (List.mem_append_left _ hv)⟩
    · rw [admitNew, if_neg hc] at hb
      obtain ⟨h1, h2, h3⟩ := admitNew_mem ok ns visited b hb
      exact ⟨List.mem_cons_of_mem _ h1, h2, h3⟩

theorem admitNew_nodup (ok : Bubble K → Bool) :
    ∀ ns visited, ((visited : List (Bubble K)).map (fun b => b.id)).Nodup →
      ((visited ++ admitNew visited ok ns).map (fun b => b.id)).Nodup
  | [], visited => by simp [admitNew]
  | n :: ns, visited => by
    intro h
    by_cases hc : (visited.all (fun v => v.id != n.id) && ok n) = true
    · rw [admitNew, if_pos hc]
      have h2 : ((visited ++ [n]).map (fun b => b.id)).Nodup := by
        rw [List.map_append, List.nodup_append]
        refine ⟨h, by simp, ?_⟩
        intro i hi hj
        simp only [List.map_cons, List.map_nil, List.mem_singleton] at hj
        subst hj
        rw [Bool.and_eq_true, List.all_eq_true] at hc
        obtain ⟨v, hv, hvi⟩ := List.mem_map.mp hi
        have := hc.1 v hv
        simp only [bne_iff_ne, ne_eq] at this
        exact absurd hvi this
      have := admitNew_nodup ok ns (visited ++ [n]) h2
      simpa using this
    · rw [admitNew, if_neg hc]
      exact admitNew_nodup ok ns visited h

theorem admitNew_complete (ok : Bubble K → Bool) :
    ∀ ns visited, ∀ n ∈ ns, ok n = true →
      n.id ∈ (visited ++ admitNew visited ok ns).map (fun b => b.id)
  | [], visited => by simp
  | m :: ns, visited => by
    intro n hn hok
    by_cases hc : (visited.all (fun v => v.id != m.id) && ok m) = true
    · rw [admitNew, if_pos hc]
      rcases List.mem_cons.mp hn with rfl | hn'
      · simp
      · have := admitNew_complete ok ns (visited ++ [m]) n hn' hok
        simpa using this
    · rw [admitNew, if_neg hc]
      rcases List.mem_cons.mp hn with rfl | hn'
      · rw [Bool.and_eq_true] at hc
        have hall : (visited.all fun v => v.id != n.id) = false := by
          cases h2 : (visited.all fun v => v.id != n.id)
          · rfl
          · exact absurd ⟨h2, hok⟩ hc
        rw [List.all_eq_false] at hall
        obtain ⟨v, hv, hvne⟩ := hall
        have hvid : v.id = n.id := by simpa using hvne
        rw [List.map_append, List.mem_append]
        exact Or.inl (hvid ▸ List.mem_map_of_mem (fun b => b.id) hv)
      · exact admitNew_complete ok ns visited n hn' hok

theorem mem_getNeighbors {grid : List (Bubble K)} {b c : Bubble K} :
    c ∈ getNeighbors grid b ↔ c ∈ grid ∧ Adjacent b c := by
  simp only [getNeighbors, List.mem_filter, Bool.and_eq_true, bne_iff_ne, ne_eq,
    Adjacent, decide_eq_true_eq]

set_option maxHeartbeats 2000000 in
/-- Invariant induction for the worklist: the result is `Nodup`, contains
`visited`, stays inside `grid`, every member is original or reachable from
the queue, and the result is closed under admissible adjacency. -/
theorem floodAux_correct (grid : List (Bubble K)) (ok : Bubble K → Bool)
    (hgrid : (grid.map (fun b => b.id)).Nodup) :
    ∀ (fuel : ℕ) (queue visited : List (Bubble K)),
      (visited.map (fun b => b.id)).Nodup →
      (∀ b ∈ visited, b ∈ grid) →
      (∀ b ∈ queue, b ∈ visited) →
      (∀ a ∈ visited, (∀ qb ∈ queue, qb.id ≠ a.id) →
        ∀ c ∈ grid, Adjacent a c → ok c = true →
          c.id ∈ visited.map (fun b => b.id)) →
      (queue.length +
        ((grid.map (fun b => b.id)).toFinset \
          (visited.map (fun b => b.id)).toFinset).card ≤ fuel) →
      ((floodAux grid ok fuel queue visited).map (fun b => b.id)).Nodup ∧
      (∀ b ∈ visited, b ∈ floodAux grid ok fuel queue visited) ∧
      (∀ b ∈ floodAux grid ok fuel queue visited, b ∈ grid) ∧
      (∀ b ∈ floodAux grid ok fuel queue visited,
        b ∈ visited ∨ ∃ q ∈ queue, Relation.TransGen (FloodStep grid ok) q b) ∧
      (∀ a ∈ floodAux grid ok fuel queue visited, ∀ c ∈ grid, Adjacent a c →
        ok c = true → c ∈ floodAux grid ok fuel queue visited) := by
  intro fuel
  induction fuel with
  | zero =>
    intro queue visited hnd hsub hq hclosed hfuel
    have hqe : queue = [] := List.length_eq_zero.mp (by omega)
    subst hqe
    show ((visited.map _).Nodup) ∧ _
    refine ⟨hnd, fun b hb => hb, hsub, fun b hb => Or.inl hb, ?_⟩
    intro a ha c hc hadj hok
    have := hclosed a ha (by simp) c hc hadj hok
    obtain ⟨c', hc', hcid⟩ := List.mem_map.mp this
    exact eq_of_mem_id hgrid (hsub c' hc') hc hcid ▸ hc'
  | succ f ih =>
    intro queue visited hnd hsub hq hclosed hfuel
    match queue with
    | [] =>
      show ((visited.map _).Nodup) ∧ _
      refine ⟨hnd, fun b hb => hb, hsub, fun b hb => Or.inl hb, ?_⟩
      intro a ha c hc hadj hok
      have := hclosed a ha (by simp) c hc hadj hok
      obtain ⟨c', hc', hcid⟩ := List.mem_map.mp this
      exact eq_of_mem_id hgrid (hsub c' hc') hc hcid ▸ hc'
    | cur :: rest =>
      rw [floodAux_cons]
      set new := admitNew visited ok (getNeighbors grid cur) with hnew
      have hnewmem := admitNew_mem ok (getNeighbors grid cur) visited
      have hnd' : ((visited ++ new).map (fun b => b.id)).Nodup :=
        admitNew_nodup ok (getNeighbors grid cur) visited hnd
      have hsub' : ∀ b ∈ visited ++ new, b ∈ grid := by
        intro b hb
        rcases List.mem_append.mp hb with hb' | hb'
        · exact hsub b hb'
        · exact (mem_getNeighbors.mp (hnewmem b hb').1).1
      have hq' : ∀ b ∈ rest ++ new, b ∈ visited ++ new := by
        intro b hb
        rcases List.mem_append.mp hb with hb' | hb'
        · exact List.mem_append_left _ (hq b (List.mem_cons_of_mem _ hb'))
        · exact List.mem_append_right _ hb'
      have hcurv : cur ∈ visited := hq cur (List.mem_cons_self _ _)
      have hclosed' : ∀ a ∈ visited ++ new, (∀ qb ∈ rest ++ new, qb.id ≠ a.id) →
          ∀ c ∈ grid, Adjacent a c → ok c = true →
            c.id ∈ (visited ++ new).map (fun b => b.id) := by
        intro a ha hanq c hc hadj hok
        rcases List.mem_append.mp ha with ha' | ha'
        · by_cases haid : a.id = cur.id
          · have hacur : a = cur := eq_of_mem_id hnd ha' hcurv haid
            subst hacur
            have hcn : c ∈ getNeighbors grid a := mem_getNeighbors.mpr ⟨hc, hadj⟩
            exact admitNew_complete ok (getNeighbors grid a) visited c hcn hok
          · have := hclosed a ha'
              (by
                intro qb hqb
                rcases List.mem_cons.mp hqb with rfl | hqb'
                · exact fun he => haid he.symm
                · exact hanq qb (List.mem_append_left _ hqb'))
              c hc hadj hok
            rw [List.map_append, List.mem_append]
            exact Or.inl this
        · exact absurd rfl (hanq a (List.mem_append_right _ ha'))
      have hnewids_nodup : (new.map (fun b => b.id)).Nodup := by
        rw [List.map_append] at hnd'
        exact hnd'.of_append_right
      have hnewids_sub : ∀ i ∈ new.map (fun b => b.id),
          i ∈ (grid.map (fun b => b.id)).toFinset \
            (visited.map (fun b => b.id)).toFinset := by
        intro i hi
        obtain ⟨b, hb, rfl⟩ := List.mem_map.mp hi
        obtain ⟨h1, _, h3⟩ := hnewmem b hb
        rw [Finset.mem_sdiff, List.mem_toFinset, List.mem_toFinset]
        constructor
        · exact List.mem_map_of_mem _ ((mem_getNeighbors.mp h1).1)
        · intro hmem
          obtain ⟨v, hv, hvid⟩ := List.mem_map.mp hmem
          exact h3 v hv hvid
      have hfuel' : (rest ++ new).length +
          ((grid.map (fun b => b.id)).toFinset \
            ((visited ++ new).map (fun b => b.id)).toFinset).card ≤ f := by
        have hset : ((visited ++ new).map (fun b => b.id)).toFinset =
            (visited.map (fun b => b.id)).toFinset ∪
              (new.map (fun b => b.id)).toFinset := by
          rw [List.map_append, List.toFinset_append]
        have hsdiff : (grid.map (fun b => b.id)).toFinset \
            ((visited ++ new).map (fun b => b.id)).toFinset =
            ((grid.map (fun b => b.id)).toFinset \
              (visited.map (fun b => b.id)).toFinset) \
              (new.map (fun b => b.id)).toFinset := by
          rw [hset]
          ext i
          simp only [Finset.mem_sdiff, Finset.mem_union]
          tauto
        have hsubF : (new.map (fun b => b.id)).toFinset ⊆
            (grid.map (fun b => b.id)).toFinset \
              (visited.map (fun b => b.id)).toFinset := by
          intro i hi
          exact hnewids_sub i (List.mem_toFinset.mp hi)
        have hcard : ((grid.map (fun b => b.id)).toFinset \
            ((visited ++ new).map (fun b => b.id)).toFinset).card =
            ((grid.map (fun b => b.id)).toFinset \
              (visited.map (fun b => b.id)).toFinset).card -
              (new.map (fun b => b.id)).toFinset.card := by
          rw [hsdiff]
          exact Finset.card_sdiff hsubF
        have hlen : (new.map (fun b => b.id)).toFinset.card = new.length := by
          rw [List.toFinset_card_of_nodup hnewids_nodup, List.length_map]
        have hle : (new.map (fun b => b.id)).toFinset.card ≤
            ((grid.map (fun b => b.id)).toFinset \
              (visited.map (fun b => b.id)).toFinset).card :=
          Finset.card_le_card hsubF
        rw [List.length_append]
        rw [List.length_cons] at hfuel
        omega
      obtain ⟨ind, imono, isub, iorig, iclosed⟩ :=
        ih (rest ++ new) (visited ++ new) hnd' hsub' hq' hclosed' hfuel'
      refine ⟨ind, ?_, isub, ?_, iclosed⟩
      · intro b hb
        exact imono b (List.mem_append_left _ hb)
      · intro b hb
        rcases iorig b hb with hb' | ⟨q, hqmem, hqreach⟩
        · rcases List.mem_append.mp hb' with h | h
          · exact Or.inl h
          · obtain ⟨h1, h2, _⟩ := hnewmem b h
            have hstep : FloodStep grid ok cur b :=
              ⟨(mem_getNeighbors.mp h1).1, (mem_getNeighbors.mp h1).2, h2⟩
            exact Or.inr ⟨cur, List.mem_cons_self _ _, Relation.TransGen.single hstep⟩
        · rcases List.mem_append.mp hqmem with h | h
          · exact Or.inr ⟨q, List.mem_cons_of_mem _ h, hqreach⟩
          · obtain ⟨h1, h2, _⟩ := hnewmem q h
            have hstep : FloodStep grid ok cur q :=
              ⟨(mem_getNeighbors.mp h1).1, (mem_getNeighbors.mp h1).2, h2⟩
            exact Or.inr ⟨cur, List.mem_cons_self _ _,
              (Relation.TransGen.single hstep).trans hqreach⟩

/-- Reachability closure: the result of the flood contains everything
`FloodStep`-reachable from any of its members. -/
theorem flood_reach_mem {grid res : List (Bubble K)} {ok : Bubble K → Bool}
    (hclosed : ∀ a ∈ res, ∀ c ∈ grid, Adjacent a c → ok c = true → c ∈ res)
    {s b : Bubble K} (hs : s ∈ res)
    (hreach : Relation.ReflTransGen (FloodStep grid ok) s b) : b ∈ res := by
  induction hreach with
  | refl => exact hs
  | tail _ hstep ihmem => exact hclosed _ ihmem _ hstep.1 hstep.2.1 hstep.2.2

/-- `getConnectedSameColorBubbles` computes exactly the connected same-colour
component of the seed over the geometric neighbor relation. -/
theorem getConnectedSameColorBubbles_spec (grid : List (Bubble K)) (seed : Bubble K)
    (hgrid : (grid.map (fun b => b.id)).Nodup) (hseed : seed ∈ grid) :
    ((getConnectedSameColorBubbles grid seed).map (fun b => b.id)).Nodup ∧
    ∀ b, b ∈ getConnectedSameColorBubbles grid seed ↔
      b ∈ grid ∧ InComponent grid seed b := by
  have hinit_nd : (([seed] : List (Bubble K)).map (fun b => b.id)).Nodup := by simp
  have hsub : ∀ b ∈ ([seed] : List (Bubble K)), b ∈ grid := by simpa using hseed
  have hqv : ∀ b ∈ ([seed] : List (Bubble K)), b ∈ ([seed] : List (Bubble K)) :=
    fun b hb => hb
  have hclosed : ∀ a ∈ ([seed] : List (Bubble K)),
      (∀ qb ∈ ([seed] : List (Bubble K)), qb.id ≠ a.id) →
      ∀ c ∈ grid, Adjacent a c → (fun n => n.color == seed.color) c = true →
        c.id ∈ ([seed] : List (Bubble K)).map (fun b => b.id) := by
    intro a ha hq c hc hadj hok
    exact absurd rfl (hq a ha)
  have hfuel : ([seed] : List (Bubble K)).length +
      ((grid.map (fun b => b.id)).toFinset \
        (([seed] : List (Bubble K)).map (fun b => b.id)).toFinset).card ≤
      grid.length + 1 := by
    have h1 : ((grid.map (fun b => b.id)).toFinset \
        (([seed] : List (Bubble K)).map (fun b => b.id)).toFinset).card ≤
        (grid.map (fun b => b.id)).toFinset.card :=
      Finset.card_le_card (Finset.sdiff_subset)
    have h2 := (grid.map (fun b => b.id)).toFinset_card_le
    have h3 : (grid.map (fun b => b.id)).length = grid.length := List.length_map _ _
    simp only [List.length_singleton]
    omega
  obtain ⟨nd, mono, sub, orig, closed⟩ :=
    floodAux_correct grid (fun n => n.color == seed.color) hgrid
      (grid.length + 1) [seed] [seed] hinit_nd hsub hqv hclosed hfuel
  refine ⟨nd, fun b => ⟨?_, ?_⟩⟩
  · intro hb
    refine ⟨sub b hb, ?_⟩
    rcases orig b hb with hb' | ⟨q, hq, hreach⟩
    · cases List.mem_singleton.mp hb'
      exact Relation.ReflTransGen.refl
    · cases List.mem_singleton.mp hq
      exact hreach.to_reflTransGen
  · rintro ⟨hbg, hreach⟩
    exact flood_reach_mem closed (mono seed (by simp)) hreach

/-- `connectedToCeiling` computes exactly the bubbles supported from the
near-ceiling seeds over the geometric neighbor relation (all colours). -/
theorem connectedToCeiling_spec (grid : List (Bubble K))
    (hgrid : (grid.map (fun b => b.id)).Nodup) :
    ((connectedToCeiling grid).map (fun b => b.id)).Nodup ∧
    ∀ b, b ∈ connectedToCeiling grid ↔ b ∈ grid ∧ Supported grid b := by
  have hseeds_sl : (ceilingSeeds grid).Sublist grid := List.filter_sublist _
  have hinit_nd : ((ceilingSeeds grid).map (fun b => b.id)).Nodup :=
    (hseeds_sl.map (fun b => b.id)).nodup hgrid
  have hsub : ∀ b ∈ ceilingSeeds grid, b ∈ grid := fun b hb => hseeds_sl.mem hb
  have hqv : ∀ b ∈ ceilingSeeds grid, b ∈ ceilingSeeds grid := fun b hb => hb
  have hclosed : ∀ a ∈ ceilingSeeds grid,
      (∀ qb ∈ ceilingSeeds grid, qb.id ≠ a.id) →
      ∀ c ∈ grid, Adjacent a c → (fun _ => true) c = true →
        c.id ∈ (ceilingSeeds grid).map (fun b => b.id) := by
    intro a ha hq c hc hadj hok
    exact absurd rfl (hq a ha)
  have hfuel : (ceilingSeeds grid).length +
      ((grid.map (fun b => b.id)).toFinset \
        ((ceilingSeeds grid).map (fun b => b.id)).toFinset).card ≤
      grid.length + (ceilingSeeds grid).length + 1 := by
    have h1 : ((grid.map (fun b => b.id)).toFinset \
        ((ceilingSeeds grid).map (fun b => b.id)).toFinset).card ≤
        (grid.map (fun b => b.id)).toFinset.card :=
      Finset.card_le_card (Finset.sdiff_subset)
    have h2 := (grid.map (fun b => b.id)).toFinset_card_le
    have h3 : (grid.map (fun b => b.id)).length = grid.length := List.length_map _ _
    omega
  obtain ⟨nd, mono, sub, orig, closed⟩ :=
    floodAux_correct grid (fun _ => true) hgrid
      (grid.length + (ceilingSeeds grid).length + 1)
      (ceilingSeeds grid) (ceilingSeeds grid) hinit_nd hsub hqv hclosed hfuel
  have hmem_seeds : ∀ b : Bubble K,
      b ∈ ceilingSeeds grid ↔ b ∈ grid ∧ b.y ≤ BUBBLE_RADIUS K * 2 := by
    intro b
    simp [ceilingSeeds, List.mem_filter]
  refine ⟨nd, fun b => ⟨?_, ?_⟩⟩
  · intro hb
    refine ⟨sub b hb, ?_⟩
    rcases orig b hb with hb' | ⟨q, hq, hreach⟩
    · obtain ⟨hbg, hby⟩ := (hmem_seeds b).mp hb'
      exact ⟨b, hbg, hby, Relation.ReflTransGen.refl⟩
    · obtain ⟨hqg, hqy⟩ := (hmem_seeds q).mp hq
      exact ⟨q, hqg, hqy, hreach.to_reflTransGen⟩
  · rintro ⟨hbg, s, hs_grid, hs_y, hreach⟩
    exact flood_reach_mem closed
      (mono s ((hmem_seeds s).mpr ⟨hs_grid, hs_y⟩)) hreach

end FloodCorrectness

/-!
## Claim theorems
-/

section Claims

variable {K : Type} [LinearOrderedField K] [FloorRing K]
variable [DecidableEq K] [DecidableRel ((· < ·) : K → K → Prop)]
  [DecidableRel ((· ≤ ·) : K → K → Prop)]

theorem GridPos.ext' {p q : GridPos K} (h1 : p.x = q.x) (h2 : p.y = q.y)
    (h3 : p.row = q.row) (h4 : p.col = q.col) : p = q := by
  cases p; cases q; simp_all

theorem getGridPosition_row (s3 x y : K) :
    (getGridPosition s3 x y).row =
      mathRound ((y - BUBBLE_RADIUS K) / (BUBBLE_DIAMETER K * s3 / 2)) := rfl

theorem getGridPosition_col (s3 x y : K) :
    (getGridPosition s3 x y).col =
      mathRound ((x - BUBBLE_RADIUS K -
        (jsMod (getGridPosition s3 x y).row 2 : K) * BUBBLE_RADIUS K) /
          BUBBLE_DIAMETER K) := rfl

theorem getGridPosition_x (s3 x y : K) :
    (getGridPosition s3 x y).x =
      BUBBLE_RADIUS K + ((getGridPosition s3 x y).col : K) * BUBBLE_DIAMETER K +
        (jsMod (getGridPosition s3 x y).row 2 : K) * BUBBLE_RADIUS K := rfl

theorem getGridPosition_y (s3 x y : K) :
    (getGridPosition s3 x y).y =
      BUBBLE_RADIUS K + ((getGridPosition s3 x y).row : K) *
        (BUBBLE_DIAMETER K * s3 / 2) := rfl

theorem mathRound_intCast (n : ℤ) : mathRound ((n : K)) = n := by
  rw [mathRound_eq_round, round_intCast]

/-- Re-snapping the centre returned by a snap reproduces the same cell. -/
theorem getGridPosition_idem (s3 : K) (hs3 : s3 ≠ 0) (x y : K) :
    getGridPosition s3 (getGridPosition s3 x y).x (getGridPosition s3 x y).y =
      getGridPosition s3 x y := by
  have hrh : BUBBLE_DIAMETER K * s3 / 2 ≠ 0 := by
    apply div_ne_zero
    · apply mul_ne_zero _ hs3
      simp only [BUBBLE_DIAMETER, BUBBLE_RADIUS]
      norm_num
    · norm_num
  have hcw : (BUBBLE_DIAMETER K) ≠ 0 := by
    simp only [BUBBLE_DIAMETER, BUBBLE_RADIUS]
    norm_num
  have hrow : (getGridPosition s3 (getGridPosition s3 x y).x
      (getGridPosition s3 x y).y).row = (getGridPosition s3 x y).row := by
    rw [getGridPosition_row, getGridPosition_y]
    rw [add_sub_cancel_left, mul_div_assoc, div_self hrh, mul_one, mathRound_intCast]
  have hcol : (getGridPosition s3 (getGridPosition s3 x y).x
      (getGridPosition s3 x y).y).col = (getGridPosition s3 x y).col := by
    rw [getGridPosition_col, hrow, getGridPosition_x]
    rw [show BUBBLE_RADIUS K + ((getGridPosition s3 x y).col : K) * BUBBLE_DIAMETER K +
        (jsMod (getGridPosition s3 x y).row 2 : K) * BUBBLE_RADIUS K - BUBBLE_RADIUS K -
        (jsMod (getGridPosition s3 x y).row 2 : K) * BUBBLE_RADIUS K =
        ((getGridPosition s3 x y).col : K) * BUBBLE_DIAMETER K from by ring]
    rw [mul_div_assoc, div_self hcw, mul_one, mathRound_intCast]
  refine GridPos.ext' ?_ ?_ hrow hcol
  · rw [getGridPosition_x s3 (getGridPosition s3 x y).x (getGridPosition s3 x y).y,
      hrow, hcol]
    exact (getGridPosition_x s3 x y).symm
  · rw [getGridPosition_y s3 (getGridPosition s3 x y).x (getGridPosition s3 x y).y,
      hrow]
    exact (getGridPosition_y s3 x y).symm

/-- C8: the hex-grid snap is idempotent: re-snapping the pixel centre
returned by a first snap yields the same integer `(row, col)` and the
identical pixel centre. -/
theorem C8_snap_idempotent (s3 : K) (hs3 : s3 ≠ 0) (x y : K) :
    getGridPosition s3 (getGridPosition s3 x y).x (getGridPosition s3 x y).y =
      getGridPosition s3 x y :=
  getGridPosition_idem s3 hs3 x y

/-- C8 witness: the idempotence theorem applied at a concrete point. -/
theorem C8_snap_idempotent_witness :
    (GVal.sqrt3 ≠ 0) ∧
    getGridPosition GVal.sqrt3
        (getGridPosition GVal.sqrt3 ⟨33, 0⟩ ⟨47, 0⟩).x
        (getGridPosition GVal.sqrt3 ⟨33, 0⟩ ⟨47, 0⟩).y =
      getGridPosition GVal.sqrt3 ⟨33, 0⟩ ⟨47, 0⟩ :=
  ⟨by decide, C8_snap_idempotent GVal.sqrt3 (by decide) ⟨33, 0⟩ ⟨47, 0⟩⟩

/-- C7: whenever the flying bubble's horizontal extent exceeds
`[0, canvasWidth]` after advancing by its velocity, the sign of `vx` is
flipped with `|vx|` unchanged and the position is clamped so that the
x-coordinate lies within `[radius, canvasWidth - radius]` (the vertical
state is untouched). -/
theorem C7_wall_reflection (fb0 : Bubble K)
    (hr : fb0.radius = BUBBLE_RADIUS K)
    (hout : (moveFlying fb0).x - (moveFlying fb0).radius < 0 ∨
      (moveFlying fb0).x + (moveFlying fb0).radius > CANVAS_WIDTH K) :
    (wallBounce (moveFlying fb0)).vx = -(moveFlying fb0).vx ∧
    |(wallBounce (moveFlying fb0)).vx| = |(moveFlying fb0).vx| ∧
    (moveFlying fb0).radius ≤ (wallBounce (moveFlying fb0)).x ∧
    (wallBounce (moveFlying fb0)).x ≤ CANVAS_WIDTH K - (moveFlying fb0).radius ∧
    (wallBounce (moveFlying fb0)).vy = (moveFlying fb0).vy ∧
    (wallBounce (moveFlying fb0)).y = (moveFlying fb0).y := by
  set fb := moveFlying fb0 with hfb
  have hrad : fb.radius = BUBBLE_RADIUS K := hr
  have hRpos : (0:K) < BUBBLE_RADIUS K := by
    simp only [BUBBLE_RADIUS]
    norm_num
  have hRW : BUBBLE_RADIUS K + BUBBLE_RADIUS K < CANVAS_WIDTH K := by
    simp only [BUBBLE_RADIUS, CANVAS_WIDTH]
    norm_num
  simp only [wallBounce]
  rw [if_pos hout]
  split_ifs with h1 h2 h2
  all_goals try dsimp only at h1 h2 ⊢
  all_goals try rw [hrad] at h1 h2 ⊢
  all_goals exact ⟨rfl, abs_neg _, by linarith, by linarith, rfl, rfl⟩

/-- A concrete flying bubble that oversteps the right wall after a move. -/
def fbWall : Bubble GVal :=
  { newBubble 9 ⟨390, 0⟩ ⟨200, 0⟩ "red" false with vx := 8, vy := ⟨-6, 0⟩ }

/-- C7 witness: the wall-reflection theorem at a concrete overstep. -/
theorem C7_wall_reflection_witness :
    (fbWall.radius = BUBBLE_RADIUS GVal) ∧
    ((moveFlying fbWall).x - (moveFlying fbWall).radius < 0 ∨
      (moveFlying fbWall).x + (moveFlying fbWall).radius > CANVAS_WIDTH GVal) ∧
    ((wallBounce (moveFlying fbWall)).vx = -(moveFlying fbWall).vx ∧
    |(wallBounce (moveFlying fbWall)).vx| = |(moveFlying fbWall).vx| ∧
    (moveFlying fbWall).radius ≤ (wallBounce (moveFlying fbWall)).x ∧
    (wallBounce (moveFlying fbWall)).x ≤ CANVAS_WIDTH GVal - (moveFlying fbWall).radius ∧
    (wallBounce (moveFlying fbWall)).vy = (moveFlying fbWall).vy ∧
    (wallBounce (moveFlying fbWall)).y = (moveFlying fbWall).y) :=
  ⟨by decide, by decide,
    C7_wall_reflection fbWall (by decide) (by decide)⟩

/-- C4 theorem (code bug): the per-tick update is the identity whenever no
bubble is flying — in particular a falling bubble (re-classified with
`vy = 5`) is never advanced by its velocity and never destroyed; nothing in
`updateGame` touches non-flying bubbles. -/
theorem C4_falling_never_updated (s3 : K) (st : GameState K)
    (h : st.flyingBubble = none) : updateGame s3 st = st := by
  simp only [updateGame, h]

/-- A falling bubble, mid-screen, as produced by `checkFloatingBubbles`. -/
def fallingDemo : Bubble GVal :=
  { newBubble 3 ⟨100, 0⟩ ⟨300, 0⟩ "red" false with vy := 5 }

/-- A state whose only bubble is falling. -/
def fallingDemoState : GameState GVal :=
  { score := 0, bubbles := [fallingDemo], gridBubbles := [], flyingBubble := none,
    gameOver := none, cancelRequested := false }

/-- C4 witness: at a state containing a falling bubble with positive `vy`,
the tick leaves the whole state (position included) unchanged. -/
theorem C4_falling_never_updated_witness :
    (fallingDemoState.flyingBubble = none) ∧
    (fallingDemo ∈ fallingDemoState.bubbles ∧ fallingDemo.vy = 5 ∧
      fallingDemo.isGrid = false) ∧
    updateGame GVal.sqrt3 fallingDemoState = fallingDemoState :=
  ⟨rfl, ⟨by decide, by decide, by decide⟩,
    C4_falling_never_updated GVal.sqrt3 fallingDemoState rfl⟩

theorem foldl_inv {α β : Type _} (P : β → Prop) (f : β → α → β)
    (hstep : ∀ acc a, P acc → P (f acc a)) :
    ∀ (l : List α) (acc : β), P acc → P (l.foldl f acc)
  | [], _, h => h
  | a :: l, acc, h => foldl_inv P f hstep l (f acc a) (hstep acc a h)

theorem getAvailableColors_aux (c : String) :
    ∀ l : List (Bubble K), (∀ b ∈ l, b.color = c) →
      l.foldl (fun colors bubble =>
        if colors.contains bubble.color then colors else colors ++ [bubble.color])
        [c] = [c]
  | [], _ => rfl
  | b :: l, h => by
    rw [List.foldl_cons]
    have hb : b.color = c := h b (List.mem_cons_self _ _)
    rw [if_pos (by simp [hb])]
    exact getAvailableColors_aux c l (fun x hx => h x (List.mem_cons_of_mem _ hx))

theorem getAvailableColors_const {c : String} (l : List (Bubble K)) (hne : l ≠ [])
    (hall : ∀ b ∈ l, b.color = c) : getAvailableColorsInGrid l = [c] := by
  match l, hne with
  | b :: rest, _ =>
    have hb : b.color = c := hall b (List.mem_cons_self _ _)
    show (b :: rest).foldl _ [] = [c]
    rw [List.foldl_cons]
    have h1 : (if ([] : List String).contains b.color then ([] : List String)
        else [] ++ [b.color]) = [c] := by simp [hb]
    rw [h1]
    exact getAvailableColors_aux c rest (fun x hx => hall x (List.mem_cons_of_mem _ hx))

theorem getRandomBubbleColor_const {c : String} (l : List (Bubble K)) (hne : l ≠ [])
    (hall : ∀ b ∈ l, b.color = c) (r : ℚ) (hr0 : 0 ≤ r) (hr1 : r < 1) :
    getRandomBubbleColor l r = c := by
  unfold getRandomBubbleColor
  rw [getAvailableColors_const l hne hall]
  rw [if_pos (by simp)]
  have hfl : ⌊r * (([c] : List String).length : ℚ)⌋ = 0 := by
    simp only [List.length_singleton, Nat.cast_one, mul_one]
    exact Int.floor_eq_zero_iff.mpr (Set.mem_Ico.mpr ⟨hr0, hr1⟩)
  rw [hfl]
  rfl

theorem monochrome_append_step (acc : List (Bubble K)) (x y : K) (rs : ℕ → ℚ)
    (hrs : ∀ k, 0 ≤ rs k ∧ rs k < 1)
    (hP : ∃ c, ∀ b ∈ acc, b.color = c) :
    ∃ c, ∀ b ∈ acc ++
        [newBubble acc.length x y (getRandomBubbleColor acc (rs acc.length)) true],
      b.color = c := by
  match acc, hP with
  | [], _ =>
    exact ⟨getRandomBubbleColor ([] : List (Bubble K)) (rs 0), by
      intro b hb
      simp only [List.nil_append, List.mem_singleton] at hb
      subst hb
      rfl⟩
  | a :: rest, ⟨c, hc⟩ =>
    refine ⟨c, ?_⟩
    intro b hb
    rcases List.mem_append.mp hb with hb' | hb'
    · exact hc b hb'
    · rw [List.mem_singleton] at hb'
      subst hb'
      show getRandomBubbleColor (a :: rest) (rs (a :: rest).length) = c
      exact getRandomBubbleColor_const (a :: rest) (by simp) hc _
        (hrs _).1 (hrs _).2

/-- C5: the colour chooser draws only from colours already present in a
non-empty grid, so every initial-grid bubble after the first copies the
first one's colour: the initial grid is monochrome for every sequence of
random draws. -/
theorem C5_initial_grid_monochrome (s3 : K) (rs : ℕ → ℚ)
    (hrs : ∀ k, 0 ≤ rs k ∧ rs k < 1) :
    ∃ c, ∀ b ∈ generateInitialGrid s3 rs, b.color = c := by
  unfold generateInitialGrid
  refine foldl_inv (fun acc : List (Bubble K) => ∃ c, ∀ b ∈ acc, b.color = c)
    _ ?_ _ [] ⟨"", by simp⟩
  intro acc r hP
  dsimp only
  refine foldl_inv (fun acc : List (Bubble K) => ∃ c, ∀ b ∈ acc, b.color = c)
    _ ?_ _ acc hP
  intro acc2 c2 hP2
  dsimp only
  split_ifs
  all_goals first
    | exact hP2
    | exact monochrome_append_step acc2 _ _ rs hrs hP2

/-- C5 witness: with the constant draw `1/2`, the generated grid is the full
45-bubble layout and it is monochrome. -/
theorem C5_initial_grid_monochrome_witness :
    (∀ _k : ℕ, 0 ≤ (1/2 : ℚ) ∧ (1/2 : ℚ) < 1) ∧
    (generateInitialGrid GVal.sqrt3 (fun _ => 1/2)).length = 45 ∧
    ∃ c, ∀ b ∈ generateInitialGrid GVal.sqrt3 (fun _ => 1/2), b.color = c :=
  ⟨fun _ => ⟨by norm_num, by norm_num⟩, by decide,
    C5_initial_grid_monochrome GVal.sqrt3 (fun _ => 1/2)
      (fun _ => ⟨by norm_num, by norm_num⟩)⟩

theorem mem_getAvailableColors_aux :
    ∀ (l : List (Bubble K)) (cols : List String) (x : String),
      (x ∈ l.foldl (fun colors bubble =>
        if colors.contains bubble.color then colors else colors ++ [bubble.color])
        cols) ↔ x ∈ cols ∨ ∃ b ∈ l, b.color = x
  | [], cols, x => by simp
  | b :: l, cols, x => by
    rw [List.foldl_cons]
    by_cases hc : cols.contains b.color
    · rw [if_pos hc]
      rw [mem_getAvailableColors_aux l cols x]
      have hmem : b.color ∈ cols := by simpa using hc
      constructor
      · rintro (h | h)
        · exact Or.inl h
        · exact Or.inr ⟨h.choose, List.mem_cons_of_mem _ h.choose_spec.1,
            h.choose_spec.2⟩
      · rintro (h | ⟨b', hb', hcol⟩)
        · exact Or.inl h
        · rcases List.mem_cons.mp hb' with rfl | hb''
          · exact Or.inl (hcol ▸ hmem)
          · exact Or.inr ⟨b', hb'', hcol⟩
    · rw [if_neg hc]
      rw [mem_getAvailableColors_aux l (cols ++ [b.color]) x]
      simp only [List.mem_append, List.mem_singleton]
      constructor
      · rintro ((h | h) | h)
        · exact Or.inl h
        · exact Or.inr ⟨b, List.mem_cons_self _ _, h.symm⟩
        · exact Or.inr ⟨h.choose, List.mem_cons_of_mem _ h.choose_spec.1,
            h.choose_spec.2⟩
      · rintro (h | ⟨b', hb', hcol⟩)
        · exact Or.inl (Or.inl h)
        · rcases List.mem_cons.mp hb' with rfl | hb''
          · exact Or.inl (Or.inr hcol.symm)
          · exact Or.inr ⟨b', hb'', hcol⟩

theorem mem_getAvailableColors (l : List (Bubble K)) (x : String) :
    x ∈ getAvailableColorsInGrid l ↔ ∃ b ∈ l, b.color = x := by
  rw [getAvailableColorsInGrid, mem_getAvailableColors_aux]
  simp

theorem getD_floor_mem (cols : List String) (hne : cols ≠ []) (r : ℚ)
    (hr0 : 0 ≤ r) (hr1 : r < 1) :
    cols.getD (⌊r * (cols.length : ℚ)⌋).toNat "" ∈ cols := by
  have hlen : 0 < cols.length := List.length_pos.mpr hne
  have hlenQ : (0:ℚ) < (cols.length : ℚ) := by exact_mod_cast hlen
  have h0 : 0 ≤ ⌊r * (cols.length : ℚ)⌋ :=
    Int.floor_nonneg.mpr (mul_nonneg hr0 (le_of_lt hlenQ))
  have hlt : ⌊r * (cols.length : ℚ)⌋ < (cols.length : ℤ) := by
    rw [Int.floor_lt]
    push_cast
    calc r * (cols.length : ℚ) < 1 * (cols.length : ℚ) :=
      mul_lt_mul_of_pos_right hr1 hlenQ
    _ = (cols.length : ℚ) := one_mul _
  have hnat : (⌊r * (cols.length : ℚ)⌋).toNat < cols.length := by omega
  rw [List.getD_eq_getElem cols "" hnat]
  exact List.getElem_mem hnat

theorem getD_attain (cols : List String) (x : String) (hx : x ∈ cols) :
    ∃ r : ℚ, 0 ≤ r ∧ r < 1 ∧ cols.getD (⌊r * (cols.length : ℚ)⌋).toNat "" = x := by
  obtain ⟨i, hi, hval⟩ := List.mem_iff_getElem.mp hx
  have hlenQ : (0:ℚ) < (cols.length : ℚ) := by exact_mod_cast (by omega : 0 < cols.length)
  refine ⟨(i : ℚ) / (cols.length : ℚ), by positivity, ?_, ?_⟩
  · rw [div_lt_one hlenQ]
    exact_mod_cast hi
  · have hmul : (i : ℚ) / (cols.length : ℚ) * (cols.length : ℚ) = (i : ℚ) :=
      div_mul_cancel₀ _ (ne_of_gt hlenQ)
    rw [hmul]
    rw [show ((i : ℚ)) = ((i : ℤ) : ℚ) by push_cast; ring, Int.floor_intCast]
    rw [Int.toNat_ofNat]
    rw [List.getD_eq_getElem cols "" hi]
    exact hval

/-- C10: with a non-empty grid the projectile colour chooser returns a colour
present in the grid and every present colour is attainable; with an empty
grid it draws from the full five-colour palette, every palette colour being
attainable. -/
theorem C10_color_chooser (gridBubbles : List (Bubble K)) (r : ℚ)
    (hr0 : 0 ≤ r) (hr1 : r < 1) :
    (gridBubbles ≠ [] →
      (∃ b ∈ gridBubbles, b.color = getRandomBubbleColor gridBubbles r) ∧
      (∀ c, (∃ b ∈ gridBubbles, b.color = c) →
        ∃ rw : ℚ, 0 ≤ rw ∧ rw < 1 ∧ getRandomBubbleColor gridBubbles rw = c)) ∧
    (gridBubbles = [] →
      getRandomBubbleColor gridBubbles r ∈ BUBBLE_COLORS ∧
      (∀ c ∈ BUBBLE_COLORS,
        ∃ rw : ℚ, 0 ≤ rw ∧ rw < 1 ∧ getRandomBubbleColor gridBubbles rw = c)) := by
  constructor
  · intro hne
    have havne : getAvailableColorsInGrid gridBubbles ≠ [] := by
      match gridBubbles, hne with
      | b :: rest, _ =>
        intro hav
        have : b.color ∈ getAvailableColorsInGrid (b :: rest) :=
          (mem_getAvailableColors _ _).mpr ⟨b, List.mem_cons_self _ _, rfl⟩
        rw [hav] at this
        cases this
    have hpos : 0 < (getAvailableColorsInGrid gridBubbles).length :=
      List.length_pos.mpr havne
    constructor
    · have hmem : getRandomBubbleColor gridBubbles r ∈
          getAvailableColorsInGrid gridBubbles := by
        unfold getRandomBubbleColor
        rw [if_pos (by omega)]
        exact getD_floor_mem _ havne r hr0 hr1
      exact (mem_getAvailableColors _ _).mp hmem
    · intro c hc
      have hcav : c ∈ getAvailableColorsInGrid gridBubbles :=
        (mem_getAvailableColors _ _).mpr hc
      obtain ⟨rw, h0, h1, hval⟩ := getD_attain _ c hcav
      refine ⟨rw, h0, h1, ?_⟩
      unfold getRandomBubbleColor
      rw [if_pos (by omega)]
      exact hval
  · intro hemp
    subst hemp
    have hav : getAvailableColorsInGrid ([] : List (Bubble K)) = [] := rfl
    constructor
    · unfold getRandomBubbleColor
      rw [hav]
      rw [if_neg (by simp)]
      exact getD_floor_mem BUBBLE_COLORS (by simp [BUBBLE_COLORS]) r hr0 hr1
    · intro c hc
      obtain ⟨rw, h0, h1, hval⟩ := getD_attain BUBBLE_COLORS c hc
      refine ⟨rw, h0, h1, ?_⟩
      unfold getRandomBubbleColor
      rw [hav]
      rw [if_neg (by simp)]
      exact hval

/-- A single red grid bubble, used to instantiate the chooser theorem. -/
def redDemo : Bubble GVal := newBubble 0 ⟨20,0⟩ ⟨20,0⟩ "red" true

/-- C10 witness: the chooser theorem at a one-bubble red grid and at the
empty grid, with the draw `1/3`. -/
theorem C10_color_chooser_witness :
    ((0:ℚ) ≤ 1/3 ∧ (1/3:ℚ) < 1) ∧
    (([redDemo] : List (Bubble GVal)) ≠ [] →
      (∃ b ∈ ([redDemo] : List (Bubble GVal)),
        b.color = getRandomBubbleColor [redDemo] (1/3)) ∧
      (∀ c, (∃ b ∈ ([redDemo] : List (Bubble GVal)), b.color = c) →
        ∃ rw : ℚ, 0 ≤ rw ∧ rw < 1 ∧
          getRandomBubbleColor [redDemo] rw = c)) ∧
    (([] : List (Bubble GVal)) = [] →
      getRandomBubbleColor ([] : List (Bubble GVal)) (1/3) ∈ BUBBLE_COLORS ∧
      (∀ c ∈ BUBBLE_COLORS, ∃ rw : ℚ, 0 ≤ rw ∧ rw < 1 ∧
        getRandomBubbleColor ([] : List (Bubble GVal)) rw = c)) :=
  ⟨⟨by norm_num, by norm_num⟩,
    (C10_color_chooser [redDemo] (1/3) (by norm_num) (by norm_num)).1,
    (C10_color_chooser ([] : List (Bubble GVal)) (1/3)
      (by norm_num) (by norm_num)).2⟩

theorem mark_mark (b : Bubble K) :
    ({ { b with isPopping := true } with isPopping := true } : Bubble K)
      = { b with isPopping := true } := rfl

theorem erase_map_mark (p : Bubble K) :
    ∀ (grid : List (Bubble K)), (grid.map (fun b => b.id)).Nodup →
      ((grid.map (fun b =>
          if b.id == p.id then { b with isPopping := true } else b)).eraseP
        (fun b => b.id == p.id))
      = grid.filter (fun b => p.id != b.id)
  | [], _ => rfl
  | g :: gs, hnd => by
    rw [List.map_cons, List.nodup_cons] at hnd
    by_cases hg : g.id = p.id
    · rw [List.map_cons, if_pos (by simpa using hg)]
      simp only [List.eraseP_cons]
      have hcond : (g.id == p.id) = true := by simpa using hg
      rw [hcond, Bool.cond_true]
      have hnone : ∀ b ∈ gs, ¬(b.id = p.id) := by
        intro b hb hbp
        exact hnd.1 (hg ▸ hbp ▸ List.mem_map_of_mem (fun b => b.id) hb)
      rw [List.filter_cons_of_neg (by simp [hg])]
      calc (gs.map (fun b =>
            if b.id == p.id then { b with isPopping := true } else b))
          = gs.map id := List.map_congr_left (by
            intro b hb
            rw [if_neg (by simpa using hnone b hb)]
            rfl)
        _ = gs := List.map_id gs
        _ = gs.filter (fun b => p.id != b.id) :=
            (List.filter_eq_self.mpr (by
              intro b hb
              simpa using fun h => hnone b hb h.symm)).symm
    · rw [List.map_cons, if_neg (by simpa using hg)]
      simp only [List.eraseP_cons]
      have hcond : (g.id == p.id) = false := by simpa using hg
      rw [hcond, Bool.cond_false]
      rw [List.filter_cons_of_pos (by simpa using fun h : p.id = g.id => hg h.symm)]
      rw [erase_map_mark p gs hnd.2]

theorem popBubbles_fold :
    ∀ (toPop grid bubbles : List (Bubble K)), (grid.map (fun b => b.id)).Nodup →
      toPop.foldl
        (fun (st : List (Bubble K) × List (Bubble K)) bubble =>
          ((st.1.map (fun b =>
              if b.id == bubble.id then { b with isPopping := true } else b)).eraseP
              (fun b => b.id == bubble.id),
            st.2.map (fun b =>
              if b.id == bubble.id then { b with isPopping := true } else b)))
        (grid, bubbles)
      = (grid.filter (fun b => toPop.all (fun v => v.id != b.id)),
         bubbles.map (fun b => if toPop.any (fun v => v.id == b.id)
           then { b with isPopping := true } else b))
  | [], grid, bubbles, _ => by simp
  | p :: rest, grid, bubbles, hnd => by
    rw [List.foldl_cons]
    dsimp only
    rw [erase_map_mark p grid hnd]
    have hnd' : ((grid.filter (fun b => p.id != b.id)).map (fun b => b.id)).Nodup :=
      ((List.filter_sublist grid).map (fun b => b.id)).nodup hnd
    rw [popBubbles_fold rest _ _ hnd']
    refine Prod.ext ?_ ?_
    · show (grid.filter (fun b => p.id != b.id)).filter
          (fun b => rest.all (fun v => v.id != b.id)) = _
      rw [List.filter_filter]
      exact List.filter_congr (by
        intro b hb
        simp [List.all_cons, Bool.and_comm])
    · show (bubbles.map (fun b =>
          if b.id == p.id then { b with isPopping := true } else b)).map
          (fun b => if rest.any (fun v => v.id == b.id)
            then { b with isPopping := true } else b) = _
      rw [List.map_map]
      refine List.map_congr_left ?_
      intro b _
      by_cases hbp : b.id = p.id
      · have h1 : (if b.id == p.id then { b with isPopping := true } else b)
            = { b with isPopping := true } := if_pos (by simpa using hbp)
        simp only [Function.comp_apply, h1]
        have hany : (p :: rest).any (fun v => v.id == b.id) = true := by
          simp [List.any_cons, hbp]
        rw [hany]
        simp only [if_true]
        by_cases hr : rest.any (fun v => v.id == ({ b with isPopping := true } : Bubble K).id)
        · rw [if_pos hr]
        · rw [if_neg hr]
      · have h1 : (if b.id == p.id then { b with isPopping := true } else b) = b :=
          if_neg (by simpa using hbp)
        simp only [Function.comp_apply, h1]
        have hany : (p :: rest).any (fun v => v.id == b.id)
            = rest.any (fun v => v.id == b.id) := by
          rw [List.any_cons]
          have hpb : (p.id == b.id) = false := by
            simp only [beq_eq_false_iff_ne, ne_eq]
            exact fun h => hbp h.symm
          rw [hpb, Bool.false_or]
        rw [hany]

theorem popBubbles_spec (grid bubbles : List (Bubble K)) (score : ℤ)
    (toPop : List (Bubble K)) (hnd : (grid.map (fun b => b.id)).Nodup) :
    popBubbles grid bubbles score toPop
      = (grid.filter (fun b => toPop.all (fun v => v.id != b.id)),
         bubbles.map (fun b => if toPop.any (fun v => v.id == b.id)
           then { b with isPopping := true } else b),
         score + toPop.length * POP_SCORE) := by
  simp only [popBubbles]
  rw [popBubbles_fold toPop grid bubbles hnd]

/-- C1: the match pass computes exactly the connected same-colour component
of the settled seed over the geometric neighbor relation; with component
size ≥ 3 every member is removed from the grid, each member is marked
popping in the render array, and the score grows by size × POP_SCORE in one
update; with size < 3 nothing changes. -/
theorem C1_match_pass (gridBubbles bubbles : List (Bubble K)) (score : ℤ)
    (startBubble : Bubble K)
    (hnd : (gridBubbles.map (fun b => b.id)).Nodup)
    (hseed : startBubble ∈ gridBubbles) :
    (∀ b, b ∈ getConnectedSameColorBubbles gridBubbles startBubble ↔
      b ∈ gridBubbles ∧ InComponent gridBubbles startBubble b) ∧
    ((getConnectedSameColorBubbles gridBubbles startBubble).length ≥ 3 →
      checkMatches gridBubbles bubbles score startBubble
        = (gridBubbles.filter (fun b =>
            (getConnectedSameColorBubbles gridBubbles startBubble).all
              (fun v => v.id != b.id)),
           bubbles.map (fun b =>
            if (getConnectedSameColorBubbles gridBubbles startBubble).any
                (fun v => v.id == b.id)
            then { b with isPopping := true } else b),
           score + (getConnectedSameColorBubbles gridBubbles startBubble).length
             * POP_SCORE)) ∧
    ((getConnectedSameColorBubbles gridBubbles startBubble).length < 3 →
      checkMatches gridBubbles bubbles score startBubble
        = (gridBubbles, bubbles, score)) := by
  refine ⟨(getConnectedSameColorBubbles_spec gridBubbles startBubble hnd hseed).2,
    ?_, ?_⟩
  · intro h3
    simp only [checkMatches]
    rw [if_pos h3]
    exact popBubbles_spec gridBubbles bubbles score _ hnd
  · intro h3
    simp only [checkMatches]
    rw [if_neg (by omega)]

/-- A vertical chain of three touching red grid bubbles. -/
def c1Grid : List (Bubble GVal) :=
  [newBubble 0 ⟨20,0⟩ ⟨20,0⟩ "red" true,
   newBubble 1 ⟨20,0⟩ ⟨50,0⟩ "red" true,
   newBubble 2 ⟨20,0⟩ ⟨80,0⟩ "red" true]

/-- The seed of the chain. -/
def c1Seed : Bubble GVal := newBubble 0 ⟨20,0⟩ ⟨20,0⟩ "red" true

set_option maxRecDepth 100000 in
/-- C1 witness: the match-pass theorem at a three-bubble red chain. -/
theorem C1_match_pass_witness :
    ((c1Grid.map (fun b => b.id)).Nodup ∧ c1Seed ∈ c1Grid) ∧
    ((∀ b, b ∈ getConnectedSameColorBubbles c1Grid c1Seed ↔
        b ∈ c1Grid ∧ InComponent c1Grid c1Seed b) ∧
     ((getConnectedSameColorBubbles c1Grid c1Seed).length ≥ 3 →
      checkMatches c1Grid c1Grid 0 c1Seed
        = (c1Grid.filter (fun b =>
            (getConnectedSameColorBubbles c1Grid c1Seed).all
              (fun v => v.id != b.id)),
           c1Grid.map (fun b =>
            if (getConnectedSameColorBubbles c1Grid c1Seed).any
                (fun v => v.id == b.id)
            then { b with isPopping := true } else b),
           0 + (getConnectedSameColorBubbles c1Grid c1Seed).length
             * POP_SCORE)) ∧
     ((getConnectedSameColorBubbles c1Grid c1Seed).length < 3 →
      checkMatches c1Grid c1Grid 0 c1Seed = (c1Grid, c1Grid, 0))) :=
  ⟨⟨by decide, by decide⟩,
    C1_match_pass c1Grid c1Grid 0 c1Seed (by decide) (by decide)⟩

/-- Two touching red grid bubbles hanging below cell (0,0). -/
def c6Grid : List (Bubble GVal) :=
  [newBubble 1 ⟨20,0⟩ ⟨50,0⟩ "red" true,
   newBubble 2 ⟨20,0⟩ ⟨80,0⟩ "red" true]

/-- A red bubble flying straight up, about to land on cell (0,0) and win. -/
def c6Flying : Bubble GVal :=
  { newBubble 3 ⟨25,0⟩ ⟨35,0⟩ "red" false with vx := 0, vy := ⟨-10,0⟩ }

/-- The game state one tick before the winning settle. -/
def c6State : GameState GVal :=
  { score := 0, bubbles := c6Grid ++ [c6Flying], gridBubbles := c6Grid,
    flyingBubble := some c6Flying, gameOver := none, cancelRequested := false }

/-- The loop state: frame 7 just fired, the next id will be 8. -/
def c6Loop : LoopState GVal :=
  { game := c6State, pending := [7], animationFrameId := 7, nextId := 8 }

set_option maxRecDepth 100000 in
/-- C6 (code bug): a tick never leaves the pending frame set empty — the
`cancelAnimationFrame(animationFrameId)` in `checkGameOver` targets the
frame that has already fired, and `gameLoop` reschedules unconditionally
afterwards.  Concretely, a settle that wins the game (grid emptied, no
flying bubble) sets the game-over flag and requests cancellation, yet the
tick still leaves a freshly scheduled frame pending. -/
theorem C6_cancel_ineffective :
    (∀ ls : LoopState GVal, (gameLoopTick GVal.sqrt3 ls).pending ≠ []) ∧
    ((gameLoopTick GVal.sqrt3 c6Loop).game.gameOver = some Outcome.won ∧
     (gameLoopTick GVal.sqrt3 c6Loop).game.cancelRequested = true ∧
     (gameLoopTick GVal.sqrt3 c6Loop).pending = [8]) := by
  constructor
  · intro ls h
    have hlen := congrArg List.length h
    simp only [gameLoopTick, List.length_append, List.length_cons,
      List.length_nil] at hlen
    omega
  · exact ⟨by decide, by decide, by decide⟩

theorem checkFloating_part (ctc : List (Bubble K)) :
    ∀ grid : List (Bubble K),
      grid.foldr
        (fun bubble (st : List (Bubble K) × List (Bubble K)) =>
          if ctc.all (fun v => v.id != bubble.id) then
            (st.1, st.2 ++ [bubble])
          else
            (bubble :: st.1, st.2))
        ([], [])
      = (grid.filter (fun b => !(ctc.all (fun v => v.id != b.id))),
         (grid.filter (fun b => ctc.all (fun v => v.id != b.id))).reverse)
  | [] => rfl
  | g :: gs => by
    rw [List.foldr_cons, checkFloating_part ctc gs]
    dsimp only
    by_cases hc : (ctc.all (fun v => v.id != g.id)) = true
    · rw [if_pos hc]
      have h1 : List.filter (fun b => !ctc.all fun v => v.id != b.id) (g :: gs)
          = List.filter (fun b => !ctc.all fun v => v.id != b.id) gs := by
        rw [List.filter_cons]
        simp [hc]
      have h2 : List.filter (fun b => ctc.all fun v => v.id != b.id) (g :: gs)
          = g :: List.filter (fun b => ctc.all fun v => v.id != b.id) gs := by
        rw [List.filter_cons]
        simp [hc]
      rw [h1, h2, List.reverse_cons]
    · have hcf : (ctc.all (fun v => v.id != g.id)) = false := by
        cases h2 : (ctc.all (fun v => v.id != g.id))
        · rfl
        · exact absurd h2 hc
      rw [if_neg hc]
      have h1 : List.filter (fun b => !ctc.all fun v => v.id != b.id) (g :: gs)
          = g :: List.filter (fun b => !ctc.all fun v => v.id != b.id) gs := by
        rw [List.filter_cons]
        simp [hcf]
      have h2 : List.filter (fun b => ctc.all fun v => v.id != b.id) (g :: gs)
          = List.filter (fun b => ctc.all fun v => v.id != b.id) gs := by
        rw [List.filter_cons]
        simp [hcf]
      rw [h1, h2]

theorem checkFloatingBubbles_eq (grid bubbles : List (Bubble K)) (score : ℤ) :
    checkFloatingBubbles grid bubbles score
      = (grid.filter (fun b =>
          !((connectedToCeiling grid).all (fun v => v.id != b.id))),
         bubbles.filter (fun b =>
            ((grid.filter (fun g =>
              (connectedToCeiling grid).all (fun v => v.id != g.id))).reverse).all
              (fun v => v.id != b.id))
           ++ ((grid.filter (fun g =>
              (connectedToCeiling grid).all (fun v => v.id != g.id))).reverse).map
              (fun bubble => { bubble with isGrid := false, vy := 5 }),
         score + 5 * ((grid.filter (fun g =>
            (connectedToCeiling grid).all (fun v => v.id != g.id))).reverse).length) := by
  simp only [checkFloatingBubbles]
  rw [checkFloating_part]

theorem filter_length_partition {α : Type _} (p : α → Bool) :
    ∀ l : List α,
      (l.filter (fun a => !(p a))).length + (l.filter p).length = l.length
  | [] => rfl
  | a :: l => by
    have ih := filter_length_partition p l
    cases h : p a <;> simp [List.filter_cons, h] <;> omega

/-- The settle pipeline up to and including the gravity pass: the match-pass
output of the settled bubble fed once into `checkFloatingBubbles` (spec
vocabulary for C2's ordering conjunct). -/
def postPopGravity (s3 : K) (st : GameState K) (fb : Bubble K) :
    List (Bubble K) × List (Bubble K) × ℤ :=
  let fb3 := snapBubbleToGrid s3 { fb with isGrid := true }
  let res := checkMatches (st.gridBubbles ++ [fb3])
    (st.bubbles.map (fun b => if b.id == fb3.id then fb3 else b)) st.score fb3
  checkFloatingBubbles res.1 res.2.1 res.2.2

set_option maxHeartbeats 1000000 in
/-- C2 (with the corrected threshold: the near-ceiling band is
`y ≤ BUBBLE_RADIUS * 2` — one bubble diameter, 40px, from the top — not two
diameters): the gravity pass runs exactly once per settle, on the post-pop
grid (`settleFlying` feeds the match-pass output straight into
`checkFloatingBubbles` and then runs the game-over check); a bubble stays
in the grid iff it is supported — near-ceiling or reachable from a
near-ceiling bubble over the all-colour geometric neighbor relation; every
unsupported grid bubble reappears exactly once, reclassified as falling
(`isGrid := false`, `vy := 5`), in the render array. -/
theorem C2_gravity_pass (gridBubbles bubbles : List (Bubble K)) (score : ℤ)
    (hnd : (gridBubbles.map (fun b => b.id)).Nodup)
    (hbnd : (bubbles.map (fun b => b.id)).Nodup) :
    (∀ b, b ∈ (checkFloatingBubbles gridBubbles bubbles score).1 ↔
      b ∈ gridBubbles ∧ Supported gridBubbles b) ∧
    (∀ b ∈ gridBubbles, ¬Supported gridBubbles b →
      { b with isGrid := false, vy := 5 }
        ∈ (checkFloatingBubbles gridBubbles bubbles score).2.1) ∧
    (((checkFloatingBubbles gridBubbles bubbles score).2.1.map
        (fun b => b.id)).Nodup) ∧
    ((checkFloatingBubbles gridBubbles bubbles score).2.2
      = score + 5 * ((gridBubbles.length : ℤ)
          - ((checkFloatingBubbles gridBubbles bubbles score).1.length : ℤ))) ∧
    (∀ (s3 : K) (st : GameState K) (fb : Bubble K),
      settleFlying s3 st fb
        = checkGameOver { st with
            score := (postPopGravity s3 st fb).2.2,
            bubbles := (postPopGravity s3 st fb).2.1,
            gridBubbles := (postPopGravity s3 st fb).1,
            flyingBubble := none }) := by
  obtain ⟨hctcnd, hctcmem⟩ := connectedToCeiling_spec gridBubbles hnd
  have hkey : ∀ b ∈ gridBubbles,
      (((connectedToCeiling gridBubbles).all (fun v => v.id != b.id)) = false
        ↔ Supported gridBubbles b) := by
    intro b hb
    constructor
    · intro hall
      rw [List.all_eq_false] at hall
      obtain ⟨v, hv, hvne⟩ := hall
      have hvid : v.id = b.id := by simpa using hvne
      have hveq : v = b :=
        eq_of_mem_id hnd ((hctcmem v).mp hv).1 hb hvid
      exact ((hctcmem b).mp (hveq ▸ hv)).2
    · intro hsup
      have hbctc : b ∈ connectedToCeiling gridBubbles :=
        (hctcmem b).mpr ⟨hb, hsup⟩
      rw [List.all_eq_false]
      exact ⟨b, hbctc, by simp⟩
  have hkey' : ∀ b ∈ gridBubbles,
      (((connectedToCeiling gridBubbles).all (fun v => v.id != b.id)) = true
        ↔ ¬Supported gridBubbles b) := by
    intro b hb
    rw [← hkey b hb]
    cases ((connectedToCeiling gridBubbles).all (fun v => v.id != b.id)) <;> simp
  rw [checkFloatingBubbles_eq]
  dsimp only
  set fallRev := (gridBubbles.filter (fun g =>
    (connectedToCeiling gridBubbles).all (fun v => v.id != g.id))).reverse with hfallRev
  refine ⟨?_, ?_, ?_, ?_, fun s3 st fb => rfl⟩
  · intro b
    rw [List.mem_filter]
    constructor
    · rintro ⟨hb, hcond⟩
      refine ⟨hb, (hkey b hb).mp ?_⟩
      simpa using hcond
    · rintro ⟨hb, hsup⟩
      refine ⟨hb, ?_⟩
      simpa using (hkey b hb).mpr hsup
  · intro b hb hsup
    rw [List.mem_append]
    refine Or.inr ?_
    refine List.mem_map_of_mem _ ?_
    rw [hfallRev, List.mem_reverse, List.mem_filter]
    exact ⟨hb, (hkey' b hb).mpr hsup⟩
  · rw [List.map_append, List.nodup_append]
    have hfall_sl : (gridBubbles.filter (fun g =>
        (connectedToCeiling gridBubbles).all (fun v => v.id != g.id))).Sublist
        gridBubbles := List.filter_sublist _
    have hfallnd : (fallRev.map (fun b => b.id)).Nodup := by
      rw [hfallRev, List.map_reverse, List.nodup_reverse]
      exact (hfall_sl.map (fun b => b.id)).nodup hnd
    refine ⟨((List.filter_sublist bubbles).map (fun b => b.id)).nodup hbnd, ?_, ?_⟩
    · have : ((fallRev.map (fun bubble =>
          ({ bubble with isGrid := false, vy := 5 } : Bubble K))).map
          (fun b => b.id)) = fallRev.map (fun b => b.id) := by
        rw [List.map_map]
        exact List.map_congr_left (fun b _ => rfl)
      rw [this]
      exact hfallnd
    · intro i hi hi'
      rw [List.mem_map] at hi hi'
      obtain ⟨b, hbmem, rfl⟩ := hi
      obtain ⟨f, hfmem, hfid⟩ := hi'
      rw [List.mem_map] at hfmem
      obtain ⟨f0, hf0, rfl⟩ := hfmem
      rw [List.mem_filter] at hbmem
      have hb2 := hbmem.2
      rw [List.all_eq_true] at hb2
      have := hb2 f0 hf0
      simp only [bne_iff_ne, ne_eq, decide_eq_true_eq] at this
      exact this (by simpa using hfid)
  · have hlen : (gridBubbles.filter (fun b =>
        !((connectedToCeiling gridBubbles).all (fun v => v.id != b.id)))).length
        + fallRev.length = gridBubbles.length := by
      rw [hfallRev, List.length_reverse]
      exact filter_length_partition _ gridBubbles
    have h1 : (fallRev.length : ℤ) = (gridBubbles.length : ℤ)
        - ((gridBubbles.filter (fun b =>
          !((connectedToCeiling gridBubbles).all (fun v => v.id != b.id)))).length : ℤ) := by
      omega
    rw [h1]

/-- The near-ceiling test as the spec words it — within approximately two
bubble diameters of the top.  Modelled from the spec, for comparison with
the source's `ceilingSeeds` threshold. -/
def specNearCeiling (b : Bubble K) : Bool :=
  decide (b.y ≤ 2 * BUBBLE_DIAMETER K)

/-- A grid bubble at `y = 50`: inside the spec's near-ceiling band (80px),
outside the code's (40px). -/
def c2Bubble : Bubble GVal := newBubble 0 ⟨20,0⟩ ⟨50,0⟩ "red" true

/-- C2 counterexample: the code's near-ceiling threshold is
`y ≤ BUBBLE_RADIUS * 2` (one bubble diameter, 40px), not the spec's
"approximately two bubble diameters" (80px): a lone grid bubble at
`y = 50` satisfies the spec's threshold — so under the spec it seeds the
traversal and remains — yet the gravity pass drops it from the grid and
reclassifies it as falling. -/
theorem C2_threshold_counterexample :
    specNearCeiling c2Bubble = true ∧
    ¬(c2Bubble.y ≤ BUBBLE_RADIUS GVal * 2) ∧
    (checkFloatingBubbles [c2Bubble] [c2Bubble] 0).1 = [] ∧
    (checkFloatingBubbles [c2Bubble] [c2Bubble] 0).2.1
      = [{ c2Bubble with isGrid := false, vy := 5 }] :=
  ⟨by decide, by decide, by decide, by decide⟩

/-- A grid with a ceiling seed, a bubble attached to it, and a floater. -/
def c2Grid : List (Bubble GVal) :=
  [newBubble 0 ⟨20,0⟩ ⟨20,0⟩ "red" true,
   newBubble 1 ⟨20,0⟩ ⟨50,0⟩ "blue" true,
   newBubble 2 ⟨200,0⟩ ⟨300,0⟩ "green" true]

/-- C2 witness: the gravity-pass theorem at a three-bubble grid whose third
bubble is unsupported. -/
theorem C2_gravity_pass_witness :
    ((c2Grid.map (fun b => b.id)).Nodup ∧ (c2Grid.map (fun b => b.id)).Nodup) ∧
    ((∀ b, b ∈ (checkFloatingBubbles c2Grid c2Grid 0).1 ↔
        b ∈ c2Grid ∧ Supported c2Grid b) ∧
     (∀ b ∈ c2Grid, ¬Supported c2Grid b →
        { b with isGrid := false, vy := 5 }
          ∈ (checkFloatingBubbles c2Grid c2Grid 0).2.1) ∧
     (((checkFloatingBubbles c2Grid c2Grid 0).2.1.map
        (fun b => b.id)).Nodup) ∧
     ((checkFloatingBubbles c2Grid c2Grid 0).2.2
        = 0 + 5 * ((c2Grid.length : ℤ)
            - ((checkFloatingBubbles c2Grid c2Grid 0).1.length : ℤ))) ∧
     (∀ (s3 : GVal) (st : GameState GVal) (fb : Bubble GVal),
        settleFlying s3 st fb
          = checkGameOver { st with
              score := (postPopGravity s3 st fb).2.2,
              bubbles := (postPopGravity s3 st fb).2.1,
              gridBubbles := (postPopGravity s3 st fb).1,
              flyingBubble := none })) :=
  ⟨⟨by decide, by decide⟩, C2_gravity_pass c2Grid c2Grid 0 (by decide) (by decide)⟩

set_option maxHeartbeats 1000000 in
/-- C9 (corrected): `handleAim` ignores only strictly-downward aims
(`dy > 0`) as no-ops; an exactly horizontal aim (`dy = 0`) is accepted, so
a shot fired at the resulting angle has vertical velocity `≤ 0` — upward or
exactly horizontal — not strictly negative as claimed. -/
theorem C9_aim_and_shot (cannonAngle : ℝ) (coords : ℝ × ℝ)
    (st : GameState ℝ) (freshId : ℕ) (r : ℚ)
    (hfly : st.flyingBubble = none) :
    (coords.2 - (CANVAS_HEIGHT ℝ - CANNON_HEIGHT ℝ / 2) > 0 →
      handleAim st.flyingBubble cannonAngle coords = cannonAngle) ∧
    (coords.2 - (CANVAS_HEIGHT ℝ - CANNON_HEIGHT ℝ / 2) ≤ 0 →
      handleAim st.flyingBubble cannonAngle coords
        = atan2 (coords.2 - (CANVAS_HEIGHT ℝ - CANNON_HEIGHT ℝ / 2))
            (coords.1 - CANVAS_WIDTH ℝ / 2) ∧
      ∃ fb, (handleShoot st (handleAim st.flyingBubble cannonAngle coords)
          freshId r).flyingBubble = some fb ∧
        fb.vy = Real.sin (atan2
            (coords.2 - (CANVAS_HEIGHT ℝ - CANNON_HEIGHT ℝ / 2))
            (coords.1 - CANVAS_WIDTH ℝ / 2)) * SHOOT_SPEED ℝ ∧
        fb.vy ≤ 0) := by
  rw [hfly]
  constructor
  · intro hdy
    simp only [handleAim]
    rw [if_neg (by simp)]
    rw [if_pos hdy]
  · intro hdy
    have hangle : handleAim none cannonAngle coords
        = atan2 (coords.2 - (CANVAS_HEIGHT ℝ - CANNON_HEIGHT ℝ / 2))
            (coords.1 - CANVAS_WIDTH ℝ / 2) := by
      simp only [handleAim]
      rw [if_neg (by simp)]
      rw [if_neg (by exact fun h => absurd h (not_lt.mpr hdy))]
    refine ⟨hangle, ?_⟩
    rw [hangle]
    simp only [handleShoot]
    rw [if_neg (by rw [hfly]; simp)]
    dsimp only
    refine ⟨_, rfl, rfl, ?_⟩
    have hsin : Real.sin (atan2
        (coords.2 - (CANVAS_HEIGHT ℝ - CANNON_HEIGHT ℝ / 2))
        (coords.1 - CANVAS_WIDTH ℝ / 2)) ≤ 0 := by
      show Real.sin (Complex.arg ⟨coords.1 - CANVAS_WIDTH ℝ / 2,
        coords.2 - (CANVAS_HEIGHT ℝ - CANNON_HEIGHT ℝ / 2)⟩) ≤ 0
      rw [Complex.sin_arg]
      exact div_nonpos_iff.mpr (Or.inr ⟨hdy, Complex.abs.nonneg _⟩)
    show Real.sin _ * SHOOT_SPEED ℝ ≤ 0
    have hspeed : (0 : ℝ) ≤ SHOOT_SPEED ℝ := by norm_num [SHOOT_SPEED]
    exact mul_nonpos_iff.mpr (Or.inr ⟨hsin, hspeed⟩)

/-- A quiet state with no flying bubble, over `ℝ`. -/
def c9State : GameState ℝ :=
  { score := 0, bubbles := [], gridBubbles := [], flyingBubble := none,
    gameOver := none, cancelRequested := false }

/-- C9 counterexample: an exactly horizontal aim — click at `(400, 580)`,
the cannon pivot's own height — is accepted (the angle becomes `atan2 0 200
= 0`), and the shot fired at that angle travels with `vy = 0`: not every
shot flies strictly upward. -/
theorem C9_horizontal_counterexample :
    handleAim c9State.flyingBubble 1 (400, 580) = 0 ∧
    ∃ fb, (handleShoot c9State 0 5 (1/2)).flyingBubble = some fb ∧ fb.vy = 0 := by
  constructor
  · show handleAim none 1 (400, 580) = 0
    simp only [handleAim]
    rw [if_neg (by simp)]
    have h1 : (580 : ℝ) - (CANVAS_HEIGHT ℝ - CANNON_HEIGHT ℝ / 2) = 0 := by
      norm_num [CANVAS_HEIGHT, CANNON_HEIGHT]
    rw [if_neg (by rw [h1]; exact lt_irrefl 0)]
    show atan2 ((580 : ℝ) - (CANVAS_HEIGHT ℝ - CANNON_HEIGHT ℝ / 2))
      ((400 : ℝ) - CANVAS_WIDTH ℝ / 2) = 0
    have h2 : (400 : ℝ) - CANVAS_WIDTH ℝ / 2 = 200 := by norm_num [CANVAS_WIDTH]
    rw [h1, h2]
    show Complex.arg ⟨200, 0⟩ = 0
    have h3 : (⟨200, 0⟩ : ℂ) = ((200 : ℝ) : ℂ) := rfl
    rw [h3]
    exact Complex.arg_ofReal_of_nonneg (by norm_num)
  · simp only [handleShoot]
    rw [if_neg (by simp [c9State])]
    dsimp only
    refine ⟨_, rfl, ?_⟩
    show Real.sin 0 * SHOOT_SPEED ℝ = 0
    rw [Real.sin_zero, zero_mul]

/-- C9 witness: the aim/shot theorem at a strictly-downward click
`(100, 595)` and at a horizontal click `(400, 580)`. -/
theorem C9_aim_and_shot_witness :
    (c9State.flyingBubble = none) ∧
    (((100 : ℝ), (595 : ℝ)).2 - (CANVAS_HEIGHT ℝ - CANNON_HEIGHT ℝ / 2) > 0 →
      handleAim c9State.flyingBubble 1 (100, 595) = 1) ∧
    (((400 : ℝ), (580 : ℝ)).2 - (CANVAS_HEIGHT ℝ - CANNON_HEIGHT ℝ / 2) ≤ 0 →
      handleAim c9State.flyingBubble 1 (400, 580)
        = atan2 (((400 : ℝ), (580 : ℝ)).2 - (CANVAS_HEIGHT ℝ - CANNON_HEIGHT ℝ / 2))
            (((400 : ℝ), (580 : ℝ)).1 - CANVAS_WIDTH ℝ / 2) ∧
      ∃ fb, (handleShoot c9State (handleAim c9State.flyingBubble 1 (400, 580))
          5 (1/2)).flyingBubble = some fb ∧
        fb.vy = Real.sin (atan2
            (((400 : ℝ), (580 : ℝ)).2 - (CANVAS_HEIGHT ℝ - CANNON_HEIGHT ℝ / 2))
            (((400 : ℝ), (580 : ℝ)).1 - CANVAS_WIDTH ℝ / 2)) * SHOOT_SPEED ℝ ∧
        fb.vy ≤ 0) :=
  ⟨rfl, (C9_aim_and_shot 1 (100, 595) c9State 5 (1/2) rfl).1,
    (C9_aim_and_shot 1 (400, 580) c9State 5 (1/2) rfl).2⟩

/-- The hex cell of a point: its integer `(row, col)` pair under the snap. -/
def cellOf (s3 : K) (x y : K) : ℤ × ℤ :=
  ((getGridPosition s3 x y).row, (getGridPosition s3 x y).col)

theorem mathRound_dist (x : K) :
    -(1/2) ≤ x - (mathRound x : K) ∧ x - (mathRound x : K) ≤ 1/2 := by
  unfold mathRound
  have h1 : ((⌊x + 1/2⌋ : ℤ) : K) ≤ x + 1/2 := Int.floor_le _
  have h2 : x + 1/2 < (⌊x + 1/2⌋ : K) + 1 := Int.lt_floor_add_one _
  constructor <;> linarith

/-- Every point lies within `√700` of its snapped cell centre: at most 20
horizontally and at most `10·√3` vertically. -/
theorem snap_region_bound (s3 : K) (hs3 : s3 * s3 = 3) (hs3pos : 0 < s3) (x y : K) :
    (x - (getGridPosition s3 x y).x)^2 + (y - (getGridPosition s3 x y).y)^2
      ≤ 700 := by
  have hrh : BUBBLE_DIAMETER K * s3 / 2 = 20 * s3 := by
    simp only [BUBBLE_DIAMETER, BUBBLE_RADIUS]
    ring
  have hrhne : (20 : K) * s3 ≠ 0 := mul_ne_zero (by norm_num) (ne_of_gt hs3pos)
  have hcw : BUBBLE_DIAMETER K = (40 : K) := by
    simp only [BUBBLE_DIAMETER, BUBBLE_RADIUS]
    norm_num
  -- vertical bound
  have hy2 : (y - (getGridPosition s3 x y).y)^2 ≤ 300 := by
    have hrow : (getGridPosition s3 x y).row
        = mathRound ((y - BUBBLE_RADIUS K) / (20 * s3)) := by
      rw [getGridPosition_row, hrh]
    have htm : ((y - BUBBLE_RADIUS K) / (20 * s3)) * (20 * s3)
        = y - BUBBLE_RADIUS K := div_mul_cancel₀ _ hrhne
    have hyv : y - (getGridPosition s3 x y).y
        = ((y - BUBBLE_RADIUS K) / (20 * s3)
            - ((mathRound ((y - BUBBLE_RADIUS K) / (20 * s3)) : ℤ) : K))
          * (20 * s3) := by
      rw [getGridPosition_y, hrh, hrow]
      linear_combination (-1 : K) * htm
    have hd := mathRound_dist ((y - BUBBLE_RADIUS K) / (20 * s3))
    have hdsq : ((y - BUBBLE_RADIUS K) / (20 * s3)
        - ((mathRound ((y - BUBBLE_RADIUS K) / (20 * s3)) : ℤ) : K))^2 ≤ 1/4 := by
      nlinarith [hd.1, hd.2]
    calc (y - (getGridPosition s3 x y).y)^2
        = ((y - BUBBLE_RADIUS K) / (20 * s3)
            - ((mathRound ((y - BUBBLE_RADIUS K) / (20 * s3)) : ℤ) : K))^2
          * (400 * (s3 * s3)) := by
          rw [hyv]; ring
      _ = ((y - BUBBLE_RADIUS K) / (20 * s3)
            - ((mathRound ((y - BUBBLE_RADIUS K) / (20 * s3)) : ℤ) : K))^2
          * 1200 := by rw [hs3]; norm_num
      _ ≤ (1/4) * 1200 := by nlinarith [hdsq]
      _ = 300 := by norm_num
  -- horizontal bound
  have hx2 : (x - (getGridPosition s3 x y).x)^2 ≤ 400 := by
    have hcol : (getGridPosition s3 x y).col
        = mathRound ((x - BUBBLE_RADIUS K -
            ((jsMod (getGridPosition s3 x y).row 2 : ℤ) : K) * BUBBLE_RADIUS K) /
          BUBBLE_DIAMETER K) := getGridPosition_col s3 x y
    have hum : ((x - BUBBLE_RADIUS K -
          ((jsMod (getGridPosition s3 x y).row 2 : ℤ) : K) * BUBBLE_RADIUS K) /
            BUBBLE_DIAMETER K) * BUBBLE_DIAMETER K
        = x - BUBBLE_RADIUS K -
          ((jsMod (getGridPosition s3 x y).row 2 : ℤ) : K) * BUBBLE_RADIUS K :=
      div_mul_cancel₀ _ (by rw [hcw]; norm_num)
    have hxv : x - (getGridPosition s3 x y).x
        = ((x - BUBBLE_RADIUS K -
            ((jsMod (getGridPosition s3 x y).row 2 : ℤ) : K) * BUBBLE_RADIUS K) /
              BUBBLE_DIAMETER K
            - ((mathRound ((x - BUBBLE_RADIUS K -
              ((jsMod (getGridPosition s3 x y).row 2 : ℤ) : K) * BUBBLE_RADIUS K) /
                BUBBLE_DIAMETER K) : ℤ) : K)) * BUBBLE_DIAMETER K := by
      rw [getGridPosition_x, hcol]
      linear_combination (-1 : K) * hum
    have hd := mathRound_dist ((x - BUBBLE_RADIUS K -
      ((jsMod (getGridPosition s3 x y).row 2 : ℤ) : K) * BUBBLE_RADIUS K) /
        BUBBLE_DIAMETER K)
    have hdsq : ((x - BUBBLE_RADIUS K -
        ((jsMod (getGridPosition s3 x y).row 2 : ℤ) : K) * BUBBLE_RADIUS K) /
          BUBBLE_DIAMETER K
        - ((mathRound ((x - BUBBLE_RADIUS K -
          ((jsMod (getGridPosition s3 x y).row 2 : ℤ) : K) * BUBBLE_RADIUS K) /
            BUBBLE_DIAMETER K) : ℤ) : K))^2 ≤ 1/4 := by
      nlinarith [hd.1, hd.2]
    calc (x - (getGridPosition s3 x y).x)^2
        = ((x - BUBBLE_RADIUS K -
            ((jsMod (getGridPosition s3 x y).row 2 : ℤ) : K) * BUBBLE_RADIUS K) /
              BUBBLE_DIAMETER K
            - ((mathRound ((x - BUBBLE_RADIUS K -
              ((jsMod (getGridPosition s3 x y).row 2 : ℤ) : K) * BUBBLE_RADIUS K) /
                BUBBLE_DIAMETER K) : ℤ) : K))^2 * (BUBBLE_DIAMETER K)^2 := by
          rw [hxv]; ring
      _ = ((x - BUBBLE_RADIUS K -
            ((jsMod (getGridPosition s3 x y).row 2 : ℤ) : K) * BUBBLE_RADIUS K) /
              BUBBLE_DIAMETER K
            - ((mathRound ((x - BUBBLE_RADIUS K -
              ((jsMod (getGridPosition s3 x y).row 2 : ℤ) : K) * BUBBLE_RADIUS K) /
                BUBBLE_DIAMETER K) : ℤ) : K))^2 * 1600 := by rw [hcw]; norm_num
      _ ≤ (1/4) * 1600 := by nlinarith [hdsq]
      _ = 400 := by norm_num
  linarith

/-- Cells determine their centres. -/
theorem center_eq_of_cell_eq (s3 : K) {x1 y1 x2 y2 : K}
    (h : cellOf s3 x1 y1 = cellOf s3 x2 y2) :
    (getGridPosition s3 x1 y1).x = (getGridPosition s3 x2 y2).x ∧
    (getGridPosition s3 x1 y1).y = (getGridPosition s3 x2 y2).y := by
  have hr : (getGridPosition s3 x1 y1).row = (getGridPosition s3 x2 y2).row :=
    congrArg Prod.fst h
  have hc : (getGridPosition s3 x1 y1).col = (getGridPosition s3 x2 y2).col :=
    congrArg Prod.snd h
  constructor
  · rw [getGridPosition_x, getGridPosition_x, hr, hc]
  · rw [getGridPosition_y, getGridPosition_y, hr]

/-- A snap-fixed bubble sits exactly at its own cell centre. -/
theorem snap_fix_components {s3 : K} {g : Bubble K}
    (h : snapBubbleToGrid s3 g = g) :
    (getGridPosition s3 g.x g.y).x = g.x ∧
    (getGridPosition s3 g.x g.y).y = g.y :=
  ⟨by simpa [snapBubbleToGrid] using congrArg Bubble.x h,
   by simpa [snapBubbleToGrid] using congrArg Bubble.y h⟩

/-- Triangle inequality, squared: a point at squared distance ≥ 1444 that
moves by a squared step ≤ 100 stays at squared distance > 700. -/
theorem step_keeps_distance {px py cx cy gx gy : K}
    (hfar : 1444 ≤ (gx - px)^2 + (gy - py)^2)
    (hstep : (px - cx)^2 + (py - cy)^2 ≤ 100) :
    700 < (cx - gx)^2 + (cy - gy)^2 := by
  nlinarith [sq_nonneg ((gx - px) * (py - cy) - (gy - py) * (px - cx)),
    sq_nonneg ((gx - px) * (px - cx) + (gy - py) * (py - cy)),
    sq_nonneg ((gx - px) + (px - cx)), sq_nonneg ((gy - py) + (py - cy)),
    sq_nonneg ((cx - gx)^2 + (cy - gy)^2 - 700)]

set_option maxHeartbeats 2000000 in
/-- C3 (corrected): `snapBubbleToGrid` performs no occupancy validation —
it overwrites the position with the snapped centre unconditionally (the
counterexample places a settled bubble onto an occupied cell) — but along
real flights the invariants still hold: when every grid bubble sits at its
own snapped centre with pairwise distinct cells and the settling bubble
arrives from a non-colliding previous position by a step of length at most
SHOOT_SPEED, its target cell is unoccupied, its stored position is exactly
the snapped centre (snapping is then fixed-point), and the extended grid
again has all members at their snapped centres with pairwise distinct
cells. -/
theorem C3_insertion (s3 : K) (hs3 : s3 * s3 = 3) (hs3pos : 0 < s3)
    (grid : List (Bubble K)) (prev fb : Bubble K)
    (hsnapfix : ∀ g ∈ grid, snapBubbleToGrid s3 g = g)
    (hcells : ∀ g1 ∈ grid, ∀ g2 ∈ grid,
      cellOf s3 g1.x g1.y = cellOf s3 g2.x g2.y → g1 = g2)
    (hradp : prev.radius = BUBBLE_RADIUS K)
    (hgrad : ∀ g ∈ grid, g.radius = BUBBLE_RADIUS K)
    (hnocol : ∀ g ∈ grid, isCollidingWith prev g = false)
    (hstep : (prev.x - fb.x)^2 + (prev.y - fb.y)^2 ≤ SHOOT_SPEED K ^ 2) :
    (∀ g ∈ grid, cellOf s3 fb.x fb.y ≠ cellOf s3 g.x g.y) ∧
    (snapBubbleToGrid s3 (snapBubbleToGrid s3 { fb with isGrid := true })
      = snapBubbleToGrid s3 { fb with isGrid := true }) ∧
    (∀ g1 ∈ grid ++ [snapBubbleToGrid s3 { fb with isGrid := true }],
     ∀ g2 ∈ grid ++ [snapBubbleToGrid s3 { fb with isGrid := true }],
      cellOf s3 g1.x g1.y = cellOf s3 g2.x g2.y → g1 = g2) := by
  have hstep' : (prev.x - fb.x)^2 + (prev.y - fb.y)^2 ≤ 100 := by
    have : SHOOT_SPEED K ^ 2 = 100 := by
      simp only [SHOOT_SPEED]
      norm_num
    linarith [hstep, this.le, this.ge]
  have hcellne : ∀ g ∈ grid, cellOf s3 fb.x fb.y ≠ cellOf s3 g.x g.y := by
    intro g hg heq
    have hcent := center_eq_of_cell_eq s3 heq
    have hfix := snap_fix_components (hsnapfix g hg)
    have hcx : (getGridPosition s3 fb.x fb.y).x = g.x := hcent.1.trans hfix.1
    have hcy : (getGridPosition s3 fb.x fb.y).y = g.y := hcent.2.trans hfix.2
    have hregion := snap_region_bound s3 hs3 hs3pos fb.x fb.y
    rw [hcx, hcy] at hregion
    have hfar : 1444 ≤ (g.x - prev.x)^2 + (g.y - prev.y)^2 := by
      have hcol := hnocol g hg
      simp only [isCollidingWith, decide_eq_false_iff_not, not_lt] at hcol
      have hth : (prev.radius + g.radius - 2)^2 = 1444 := by
        rw [hradp, hgrad g hg]
        simp only [BUBBLE_RADIUS]
        norm_num
      rw [hth] at hcol
      simpa [distSq] using hcol
    have := step_keeps_distance hfar hstep'
    linarith
  have hidem : snapBubbleToGrid s3
      (snapBubbleToGrid s3 { fb with isGrid := true })
      = snapBubbleToGrid s3 { fb with isGrid := true } := by
    have h1 : getGridPosition s3 (snapBubbleToGrid s3 { fb with isGrid := true }).x
        (snapBubbleToGrid s3 { fb with isGrid := true }).y
        = getGridPosition s3 fb.x fb.y := by
      show getGridPosition s3 (getGridPosition s3 fb.x fb.y).x
        (getGridPosition s3 fb.x fb.y).y = getGridPosition s3 fb.x fb.y
      exact getGridPosition_idem s3 (ne_of_gt hs3pos) fb.x fb.y
    show ({ snapBubbleToGrid s3 { fb with isGrid := true } with
      x := (getGridPosition s3 (snapBubbleToGrid s3 { fb with isGrid := true }).x
        (snapBubbleToGrid s3 { fb with isGrid := true }).y).x,
      y := (getGridPosition s3 (snapBubbleToGrid s3 { fb with isGrid := true }).x
        (snapBubbleToGrid s3 { fb with isGrid := true }).y).y } : Bubble K)
      = snapBubbleToGrid s3 { fb with isGrid := true }
    rw [h1]
    rfl
  have hcell3 : cellOf s3 (snapBubbleToGrid s3 { fb with isGrid := true }).x
      (snapBubbleToGrid s3 { fb with isGrid := true }).y
      = cellOf s3 fb.x fb.y := by
    unfold cellOf
    have h1 : getGridPosition s3 (snapBubbleToGrid s3 { fb with isGrid := true }).x
        (snapBubbleToGrid s3 { fb with isGrid := true }).y
        = getGridPosition s3 fb.x fb.y := by
      show getGridPosition s3 (getGridPosition s3 fb.x fb.y).x
        (getGridPosition s3 fb.x fb.y).y = getGridPosition s3 fb.x fb.y
      exact getGridPosition_idem s3 (ne_of_gt hs3pos) fb.x fb.y
    rw [h1]
  refine ⟨hcellne, hidem, ?_⟩
  intro g1 h1 g2 h2 heq
  rcases List.mem_append.mp h1 with h1g | h1f <;>
    rcases List.mem_append.mp h2 with h2g | h2f
  · exact hcells g1 h1g g2 h2g heq
  · rw [List.mem_singleton] at h2f
    subst h2f
    rw [hcell3] at heq
    exact absurd heq.symm (hcellne g1 h1g)
  · rw [List.mem_singleton] at h1f
    subst h1f
    rw [hcell3] at heq
    exact absurd heq (hcellne g2 h2g)
  · rw [List.mem_singleton] at h1f h2f
    rw [h1f, h2f]

/-- An occupied cell: a red grid bubble at the centre of cell `(0,0)`. -/
def c3Grid : List (Bubble GVal) := [newBubble 1 ⟨20,0⟩ ⟨20,0⟩ "red" true]

/-- A blue bubble settling at `(20, 30)`, which snaps to cell `(0,0)`. -/
def c3Fly : Bubble GVal := newBubble 2 ⟨20,0⟩ ⟨30,0⟩ "blue" false

/-- The state in which `c3Fly` settles. -/
def c3St : GameState GVal :=
  { score := 0, bubbles := c3Grid ++ [c3Fly], gridBubbles := c3Grid,
    flyingBubble := some c3Fly, gameOver := none, cancelRequested := false }

set_option maxRecDepth 100000 in
/-- C3 counterexample: the insertion path performs no occupancy check —
settling a bubble at `(20, 30)` snaps it onto the already occupied cell
`(0,0)`, leaving two grid bubbles in the same cell at the same pixel
position. -/
theorem C3_no_validation_counterexample :
    ((settleFlying GVal.sqrt3 c3St c3Fly).gridBubbles.map
      (fun b => cellOf GVal.sqrt3 b.x b.y)) = [(0, 0), (0, 0)] ∧
    ¬ ((settleFlying GVal.sqrt3 c3St c3Fly).gridBubbles.map
      (fun b => cellOf GVal.sqrt3 b.x b.y)).Nodup ∧
    ((settleFlying GVal.sqrt3 c3St c3Fly).gridBubbles.map
      (fun b => (b.x, b.y))) = [(⟨20,0⟩, ⟨20,0⟩), (⟨20,0⟩, ⟨20,0⟩)] :=
  ⟨by decide, by decide, by decide⟩

/-- The C3 witness grid: one red bubble at the centre of cell `(0,0)`. -/
def c3wGrid : List (Bubble GVal) := [newBubble 1 ⟨20,0⟩ ⟨20,0⟩ "red" true]

/-- The flying bubble's previous, non-colliding position. -/
def c3wPrev : Bubble GVal := newBubble 2 ⟨20,0⟩ ⟨70,0⟩ "blue" false

/-- The flying bubble one 10px step later. -/
def c3wFly : Bubble GVal := newBubble 2 ⟨20,0⟩ ⟨60,0⟩ "blue" false

set_option maxRecDepth 100000 in
/-- C3 witness: the insertion theorem at a one-bubble grid with the settling
bubble arriving from straight below. -/
theorem C3_insertion_witness :
    (GVal.sqrt3 * GVal.sqrt3 = 3 ∧ 0 < GVal.sqrt3 ∧
     (∀ g ∈ c3wGrid, snapBubbleToGrid GVal.sqrt3 g = g) ∧
     (∀ g1 ∈ c3wGrid, ∀ g2 ∈ c3wGrid,
       cellOf GVal.sqrt3 g1.x g1.y = cellOf GVal.sqrt3 g2.x g2.y → g1 = g2) ∧
     c3wPrev.radius = BUBBLE_RADIUS GVal ∧
     (∀ g ∈ c3wGrid, g.radius = BUBBLE_RADIUS GVal) ∧
     (∀ g ∈ c3wGrid, isCollidingWith c3wPrev g = false) ∧
     ((c3wPrev.x - c3wFly.x)^2 + (c3wPrev.y - c3wFly.y)^2
       ≤ SHOOT_SPEED GVal ^ 2)) ∧
    ((∀ g ∈ c3wGrid,
        cellOf GVal.sqrt3 c3wFly.x c3wFly.y ≠ cellOf GVal.sqrt3 g.x g.y) ∧
     (snapBubbleToGrid GVal.sqrt3
        (snapBubbleToGrid GVal.sqrt3 { c3wFly with isGrid := true })
       = snapBubbleToGrid GVal.sqrt3 { c3wFly with isGrid := true }) ∧
     (∀ g1 ∈ c3wGrid ++
        [snapBubbleToGrid GVal.sqrt3 { c3wFly with isGrid := true }],
      ∀ g2 ∈ c3wGrid ++
        [snapBubbleToGrid GVal.sqrt3 { c3wFly with isGrid := true }],
       cellOf GVal.sqrt3 g1.x g1.y = cellOf GVal.sqrt3 g2.x g2.y → g1 = g2)) :=
  ⟨⟨by decide, by decide, by decide, by decide, by decide, by decide, by decide,
    by decide⟩,
   C3_insertion GVal.sqrt3 (by decide) (by decide) c3wGrid c3wPrev c3wFly
     (by decide) (by decide) (by decide) (by decide) (by decide) (by decide)⟩

end Claims

end BubbleShooter
